import Mathlib

/-!
Verification development for the Perigaeum-Finder repository.

The repository's numeric event-finding engine (scan / bracket / refine /
classify over an astronomical oracle) is shallowly embedded here.
Pure numeric code is translated over the exact rationals; the
golden-section refiner, whose reduction ratio is the irrational
(sqrt 5 - 1)/2, is translated over the reals.  JavaScript NaN results
(a failed oracle sample) are modelled as Option.none, and JavaScript
exceptions as Except.error.  Each embedded function carries the
source file and function it translates.
-/

set_option maxHeartbeats 1000000

/-- JavaScript truncating division result used by the % operator:
for a finite dividend x and positive divisor, the quotient is truncated
toward zero. -/
def jsTrunc (q : ℚ) : ℤ := if 0 ≤ q then ⌊q⌋ else ⌈q⌉

/-- JavaScript remainder x % n (sign follows the dividend, n > 0 here). -/
def jsMod (x n : ℚ) : ℚ := x - n * (jsTrunc (x / n) : ℚ)

/-- norm360 from jonas-mondphasen-year.js / prenatal-check.js /
moon-perigee-apogee-year.js: `let v = x % 360; if (v < 0) v += 360;`. -/
def norm360 (x : ℚ) : ℚ :=
  let v := jsMod x 360
  if v < 0 then v + 360 else v

namespace Jonas

/-- signedDiffDeg from jonas-mondphasen-year.js (lines 15-19):
`let d = norm360(a - b); if (d > 180) d -= 360; return d;`. -/
def signedDiffDeg (a b : ℚ) : ℚ :=
  let d := norm360 (a - b)
  if 180 < d then d - 360 else d

/-- The local closure fAt of refineRootBisection
(jonas-mondphasen-year.js lines 54-59).  The composition
ms -> jdFromUTCDate -> phaseAngleDeg through the SwissEph oracle is
abstracted as `ang : ℤ → ℚ` (phase angle in degrees at epoch-ms `ms`). -/
def fAt (ang : ℤ → ℚ) (targetAngleDeg : ℚ) (ms : ℤ) : ℚ :=
  signedDiffDeg (ang ms) targetAngleDeg

/-- Loop body of refineRootBisection (jonas-mondphasen-year.js lines 70-85).
Times are epoch milliseconds (integers); `Math.floor((a+b)/2)` is Int.fdiv.
After the iteration budget the final midpoint is returned (line 85). -/
def rrbLoop (g : ℤ → ℚ) : ℕ → ℤ → ℤ → ℚ → Option ℤ
  | 0, a, b, _ => some (Int.fdiv (a + b) 2)
  | n + 1, a, b, fa =>
    let mid := Int.fdiv (a + b) 2
    let fm := g mid
    if |b - a| ≤ 1000 ∨ fm = 0 then some mid
    else if fa * fm ≤ 0 then rrbLoop g n a mid fa
    else rrbLoop g n mid b fm

/-- refineRootBisection (jonas-mondphasen-year.js lines 53-86).
Returns none (`null`) when the bracket has no sign change. -/
def refineRootBisection (ang : ℤ → ℚ) (t0ms t1ms : ℤ) (targetAngleDeg : ℚ)
    (maxIter : ℕ) : Option ℤ :=
  let g := fAt ang targetAngleDeg
  let fa := g t0ms
  let fb := g t1ms
  if fa = 0 then some t0ms
  else if fb = 0 then some t1ms
  else if 0 < fa * fb then none
  else rrbLoop g maxIter t0ms t1ms fa

/-- The push-guard of the returns list (jonas-mondphasen-year.js lines
242-252): a refined root is appended only when it is more than
minSeparation away from the last kept event.  Times in epoch ms. -/
def dedupPush (minSep : ℚ) (returns : List ℚ) (root : ℚ) : List ℚ :=
  match returns.getLast? with
  | none => returns ++ [root]
  | some last => if minSep < |last - root| then returns ++ [root] else returns

/-- The deduplication pass the handler performs over refined roots in
time order (jonas-mondphasen-year.js lines 240-253, minSep = 2*60*1000 ms). -/
def dedup (minSep : ℚ) (xs : List ℚ) : List ℚ :=
  xs.foldl (dedupPush minSep) []

/-- Classification kind strings returned by classifyEvent. -/
def kindSuper : String := "super"

/-- Classification kind string for near-maximum events. -/
def kindMini : String := "mini"

/-- Classification kind string for interior events. -/
def kindNormal : String := "normal"

/-- Band-classification core of classifyEvent
(jonas-mondphasen-year.js lines 589-600).  The bounding extrema chosen by
the preceding pairing code (lines 566-587) enter as perUseDist/apoUseDist:
`span = |apoUse.distAU - perUse.distAU|; if (!(span > 0)) normal;
thrNearMin = distMin + 0.10*(distMax - distMin); ...`. -/
def classifyEvent (distEvent perUseDist apoUseDist : ℚ) : String :=
  let span := |apoUseDist - perUseDist|
  if ¬ (0 < span) then kindNormal
  else
    let distMin := min perUseDist apoUseDist
    let distMax := max perUseDist apoUseDist
    let thrNearMin := distMin + (1/10) * (distMax - distMin)
    let thrNearMax := distMax - (1/10) * (distMax - distMin)
    if distEvent ≤ thrNearMin then kindSuper
    else if thrNearMax ≤ distEvent then kindMini
    else kindNormal

end Jonas

namespace Prenatal

/-- signedDiffDeg from prenatal-check.js (lines 130-134):
`let d = norm360(a) - norm360(b); d = ((d + 540) % 360) - 180;`. -/
def signedDiffDeg (a b : ℚ) : ℚ :=
  let d := norm360 a - norm360 b
  jsMod (d + 540) 360 - 180

end Prenatal

namespace V2

/-- Loop of bisectZero (api/perigaeum-year.js, second variant, lines
425-439).  The observable may be NaN (modelled Option.none), in which
case the refiner returns none.  fb is written but never read in the
source, so only fa is threaded. -/
def bisectLoop (f : ℚ → Option ℚ) (tolDays : ℚ) : ℕ → ℚ → ℚ → ℚ → Option ℚ
  | 0, left, right, _ => some ((left + right) / 2)
  | n + 1, left, right, fa =>
    let mid := (left + right) / 2
    match f mid with
    | none => none
    | some fm =>
      if right - left ≤ tolDays then some mid
      else if fa * fm ≤ 0 then bisectLoop f tolDays n left mid fa
      else bisectLoop f tolDays n mid right fm

/-- bisectZero (api/perigaeum-year.js, second variant, lines 415-441).
Non-finite endpoint values yield none; an endpoint exactly zero is
returned; a non-bracketing pair (fa*fb > 0) yields none (`null`). -/
def bisectZero (f : ℚ → Option ℚ) (a b tolDays : ℚ) : Option ℚ :=
  match f a, f b with
  | some fa, some fb =>
    if fa = 0 then some a
    else if fb = 0 then some b
    else if 0 < fa * fb then none
    else bisectLoop f tolDays 80 a b fa
  | _, _ => none

end V2

/-- JavaScript whitespace accepted by parseInt before the number. -/
def isJsSpace (c : Char) : Bool :=
  c == ' ' || c == '\t' || c == '\n' || c == '\r'

/-- Numeric value of a decimal digit character. -/
def digitVal (c : Char) : ℤ := (c.toNat : ℤ) - 48

/-- Digit-run part of JavaScript parseInt(s, 10): reads the longest
leading run of decimal digits; an empty run is NaN (none). -/
def jsParseIntCore (sign : ℤ) (cs : List Char) : Option ℤ :=
  let ds := cs.takeWhile Char.isDigit
  if ds.isEmpty then none
  else some (sign * ds.foldl (fun acc c => acc * 10 + digitVal c) 0)

/-- JavaScript parseInt(s, 10): strip leading whitespace, optional sign,
then a leading digit run; NaN (none) when no digits are found. -/
def jsParseInt (s : String) : Option ℤ :=
  match s.toList.dropWhile isJsSpace with
  | '-' :: rest => jsParseIntCore (-1) rest
  | '+' :: rest => jsParseIntCore 1 rest
  | rest => jsParseIntCore 1 rest

/-- Year validation shared by the yearly handlers
(api/perigaeum-year.js lines 205-214, api/moon-perigee-apogee-year.js
lines 50-59): `const year = parseInt(yearParam, 10);
if (!Number.isFinite(year) || year < 1900 || year > 2050) ...` — none
means the handler responds 400 before any oracle work. -/
def yearGate (yearParam : String) : Option ℤ :=
  match jsParseInt yearParam with
  | none => none
  | some year => if year < 1900 ∨ 2050 < year then none else some year

/-- Response skeleton of a yearly handler: HTTP status, ok flag, and the
per-body results when produced. -/
structure YearResponse where
  status : ℕ
  ok : Bool
  bodies : Option (List String)
deriving DecidableEq, Repr

/-- Year-gate stage of the yearly handlers (api/perigaeum-year.js lines
205-214 followed by the scan pipeline; identically
api/moon-perigee-apogee-year.js lines 50-59).  The whole downstream
scan pipeline is the parameter `pipeline`; it is reached only with a
gated year. -/
def handlerYearStage (yearParam : String) (pipeline : ℤ → List String) :
    YearResponse :=
  match yearGate yearParam with
  | none => ⟨400, false, none⟩
  | some y => ⟨200, true, some (pipeline y)⟩

namespace V1

/-- The golden-section ratio `gr = (Math.sqrt(5) - 1) / 2` of goldenMin
(api/perigaeum-year.js line 68). -/
noncomputable def gr : ℝ := (Real.sqrt 5 - 1) / 2

/-- Loop state of goldenMin: interval ends a b, probe points c d, and the
cached observable values fc fd. -/
structure GoldenSt where
  a : ℝ
  b : ℝ
  c : ℝ
  d : ℝ
  fc : ℝ
  fd : ℝ

/-- Iteration loop of goldenMin (api/perigaeum-year.js lines 74-85):
stop when the interval is within tolerance, otherwise keep the half
bracketing the smaller cached value and evaluate one new probe point. -/
noncomputable def goldenLoop (f : ℝ → ℝ) (tolDays : ℝ) :
    ℕ → GoldenSt → GoldenSt
  | 0, s => s
  | n + 1, s =>
    if s.b - s.a ≤ tolDays then s
    else if s.fd < s.fc then
      goldenLoop f tolDays n
        ⟨s.c, s.b, s.d, s.c + gr * (s.b - s.c), s.fd, f (s.c + gr * (s.b - s.c))⟩
    else
      goldenLoop f tolDays n
        ⟨s.a, s.d, s.d - gr * (s.d - s.a), s.c, f (s.d - gr * (s.d - s.a)), s.fc⟩

/-- goldenMin (api/perigaeum-year.js lines 67-87): golden-section search
with an 80-iteration budget, returning the midpoint of the final
interval.  The observable f is assumed finite here (the first variant's
getDist guards call failures to NaN, and the convergence claim supplies
a genuine function). -/
noncomputable def goldenMin (f : ℝ → ℝ) (a b tolDays : ℝ) : ℝ :=
  let s := goldenLoop f tolDays 80
    ⟨a, b, b - gr * (b - a), a + gr * (b - a),
     f (b - gr * (b - a)), f (a + gr * (b - a))⟩
  (s.a + s.b) / 2

/-- Sampling step of findRetroWindows: 0.125 day (3 h)
(api/perigaeum-year.js line 141). -/
def retroGridStep : ℚ := 1 / 8

/-- Hysteresis streak length `need = 3` (api/perigaeum-year.js line 142). -/
def need : ℕ := 3

/-- Neutral band for the longitude speed (api/perigaeum-year.js line 143). -/
def epsSpeed : ℚ := 1 / 1000000

/-- State of the retro-window scan (api/perigaeum-year.js lines 145-149). -/
structure RetroState where
  inRetro : Bool
  startJd : Option ℚ
  retroStreak : ℕ
  directStreak : ℕ
  windows : List (ℚ × ℚ)
deriving DecidableEq, Repr

/-- Initial state of the scan (api/perigaeum-year.js lines 146-149). -/
def initRetroState : RetroState := ⟨false, none, 0, 0, []⟩

/-- Body of the findRetroWindows scan loop for one sample
(api/perigaeum-year.js lines 153-186).  A NaN speed (none) is skipped,
a speed inside the neutral band is skipped, otherwise the streak
counters are updated and the hysteresis flips are applied; on a flip
into retro the start is back-dated `step * (need + 1)` and clamped to
jdStart, on a flip out the finished window is pushed. -/
def retroStep (jdStart : ℚ) (s : RetroState) (curJd : ℚ) (samp : Option ℚ) :
    RetroState :=
  match samp with
  | none => s
  | some sp =>
    if |sp| ≤ epsSpeed then s
    else
      let isRetro := sp < 0
      let s1 : RetroState :=
        if isRetro then
          { s with retroStreak := s.retroStreak + 1, directStreak := 0 }
        else
          { s with directStreak := s.directStreak + 1, retroStreak := 0 }
      let s2 : RetroState :=
        if s1.inRetro = false ∧ need ≤ s1.retroStreak then
          { s1 with
            inRetro := true
            startJd := some
              (let st := curJd - retroGridStep * ((need : ℚ) + 1)
               if st < jdStart then jdStart else st) }
        else s1
      if s2.inRetro = true ∧ need ≤ s2.directStreak then
        { s2 with
          inRetro := false
          windows := s2.windows ++ [(s2.startJd.getD jdStart, curJd)]
          startJd := none }
      else s2

/-- Scan loop of findRetroWindows (api/perigaeum-year.js lines 151-189):
walk the 3-hour grid from jdStart while `jd <= jdEnd + 1e-9`, clamping
the sample time to jdEnd and stopping after the clamped sample. -/
def retroLoop (speed : ℚ → Option ℚ) (jdStart jdEnd : ℚ) :
    ℕ → ℚ → RetroState → RetroState
  | 0, _, s => s
  | n + 1, jd, s =>
    if jd ≤ jdEnd + 1 / 1000000000 then
      let curJd := min jd jdEnd
      let s1 := retroStep jdStart s curJd (speed curJd)
      if jdEnd ≤ curJd then s1
      else retroLoop speed jdStart jdEnd n (jd + retroGridStep) s1
    else s

/-- Iteration budget sufficient for the scan loop's guard. -/
def retroFuel (jdStart jdEnd : ℚ) : ℕ :=
  (⌊(jdEnd + 1 / 1000000000 - jdStart) / retroGridStep⌋ + 2).toNat

/-- findRetroWindows (api/perigaeum-year.js lines 140-196): run the scan,
close a still-open retro window at jdEnd (lines 191-193), and discard
windows of duration at most one day (line 195). -/
def findRetroWindows (speed : ℚ → Option ℚ) (jdStart jdEnd : ℚ) :
    List (ℚ × ℚ) :=
  let s := retroLoop speed jdStart jdEnd (retroFuel jdStart jdEnd) jdStart
    initRetroState
  let ws :=
    if s.inRetro = true ∧ s.startJd.isSome then
      s.windows ++ [(s.startJd.getD jdStart, jdEnd)]
    else s.windows
  ws.filter fun w => 1 < w.2 - w.1

/-- The scan-loop body iterated over an explicit list of
(sample time, speed sample) pairs; this is the findRetroWindows loop with
the time grid abstracted away. -/
def retroSteps (jdStart : ℚ) (s : RetroState) (xs : List (ℚ × Option ℚ)) :
    RetroState :=
  xs.foldl (fun st p => retroStep jdStart st p.1 p.2) s

end V1

namespace Traces

/-- Resource events of one handler invocation: acquiring the SwissEph
handle, closing it, and sending the HTTP response. -/
inductive REv where
  | acquire : REv
  | close : REv
  | respond : ℕ → REv
deriving DecidableEq, Repr

/-- Control-flow trace of the perigaeum-year handler (api/perigaeum-year.js
lines 198-333): OPTIONS returns before `new SwissEph()`; every other
path acquires the handle, runs the try block (year gate 400, init
failure 500, missing path setter 500, body-loop throw 500, success 200)
and reaches the finally block, which closes the handle. -/
def perigaeumHandlerEvents (isOptions : Bool) (yearParam : String)
    (calcUtOk setPathOk bodyLoopThrows : Bool) : List REv :=
  if isOptions then [REv.respond 200]
  else
    REv.acquire ::
      ((match yearGate yearParam with
        | none => [REv.respond 400]
        | some _ =>
          if ¬ calcUtOk then [REv.respond 500]
          else if ¬ setPathOk then [REv.respond 500]
          else if bodyLoopThrows then [REv.respond 500]
          else [REv.respond 200]) ++ [REv.close])

/-- Control-flow trace of the jonas-mondphasen-year handler
(api/jonas-mondphasen-year.js lines 131-275): OPTIONS / blocked origin /
non-GET return before `new SwissEph()`; afterwards the handle is
acquired (line 152) and the handler returns 400 / 500 / 200 — there is
no close() call on any path. -/
def jonasHandlerEvents (isOptions originBlocked isGet hasBirth
    yearOrRangeOk rangeOrderOk computationThrows : Bool) : List REv :=
  if isOptions then [REv.respond 204]
  else if originBlocked then [REv.respond 403]
  else if ¬ isGet then [REv.respond 405]
  else
    REv.acquire ::
      (if ¬ hasBirth then [REv.respond 400]
       else if ¬ yearOrRangeOk then [REv.respond 400]
       else if ¬ rangeOrderOk then [REv.respond 400]
       else if computationThrows then [REv.respond 500]
       else [REv.respond 200])

end Traces

/-- Counterexample input for the retro-window overlap: retro throughout,
except a direct stretch on sample indices 10-12 of the 3-hour grid. -/
def cexSpeed : ℚ → Option ℚ := fun jd =>
  if 10 / 8 ≤ jd ∧ jd ≤ 12 / 8 then some 1 else some (-1)

/-- A retro sample for the hysteresis property: present, outside the
neutral band, and negative. -/
def isRetroSample (p : ℚ × Option ℚ) : Bool :=
  match p.2 with
  | none => false
  | some sp => decide (sp < 0 ∧ V1.epsSpeed < |sp|)

/-- A direct sample: present, outside the neutral band, nonnegative. -/
def isDirectSample (p : ℚ × Option ℚ) : Bool :=
  match p.2 with
  | none => false
  | some sp => decide (0 ≤ sp ∧ V1.epsSpeed < |sp|)

/-- No run of `need` consecutive retro samples: neutral samples leave the
run length unchanged, direct samples reset it, and every retro sample
must keep the running count below `need`.  `cur` is the length of the
current run. -/
def noRetroRunB : ℕ → List (ℚ × Option ℚ) → Bool
  | _, [] => true
  | cur, p :: rest =>
    if isRetroSample p then decide (cur + 1 < V1.need) && noRetroRunB (cur + 1) rest
    else if isDirectSample p then noRetroRunB 0 rest
    else noRetroRunB cur rest

/-- No run of `need` consecutive direct samples, symmetrically. -/
def noDirectRunB : ℕ → List (ℚ × Option ℚ) → Bool
  | _, [] => true
  | cur, p :: rest =>
    if isDirectSample p then decide (cur + 1 < V1.need) && noDirectRunB (cur + 1) rest
    else if isRetroSample p then noDirectRunB 0 rest
    else noDirectRunB cur rest

/-- Relation maintained between windows pushed by the scan: a later
window starts no earlier than half a day before an earlier window's
end (the back-dating is at most `4 * step = 1/2` day). -/
def windowRel (w1 w2 : ℚ × ℚ) : Prop := w1.2 - 1 / 2 ≤ w2.1

/-- Invariant of the scan state at time bound t: the pushed windows are
pairwise in relation windowRel, their ends are at most t, and an open
window's start is at least half a day before any pushed end. -/
def WInv (t : ℚ) (s : V1.RetroState) : Prop :=
  List.Pairwise windowRel s.windows ∧
  (∀ w ∈ s.windows, w.2 ≤ t) ∧
  (s.inRetro = true → ∃ v, s.startJd = some v ∧ ∀ w ∈ s.windows, w.2 - 1 / 2 ≤ v)

/-- f is strictly unimodal on [a, b] with minimiser t0: strictly
decreasing before t0 and strictly increasing after it. -/
def UnimodalOn (f : ℝ → ℝ) (a b t0 : ℝ) : Prop :=
  (∀ x y, a ≤ x → x < y → y ≤ t0 → f y < f x) ∧
  (∀ x y, t0 ≤ x → x < y → y ≤ b → f x < f y)

/-- Invariant of the golden-section loop state: the interval stays inside
[a0, b0], contains the minimiser, the probe points sit at the golden
ratio, and the cached values are genuine. -/
def GInv (f : ℝ → ℝ) (a0 b0 t0 : ℝ) (s : V1.GoldenSt) : Prop :=
  a0 ≤ s.a ∧ s.b ≤ b0 ∧ s.a ≤ t0 ∧ t0 ≤ s.b ∧
  s.c = s.b - V1.gr * (s.b - s.a) ∧ s.d = s.a + V1.gr * (s.b - s.a) ∧
  s.fc = f s.c ∧ s.fd = f s.d

/-- The synthetic oracle of the convergence claim. -/
noncomputable def quadOracle : ℝ → ℝ := fun t => (t - 1 / 2) ^ 2

/-- Concrete year strings used in witness statements. -/
def yrGood : String := "2000"

/-- A year string that does not parse as an integer. -/
def yrBad : String := "abc"

/-- A year string below the accepted range. -/
def yrLow : String := "1800"

namespace V3

/-!
Embedding of the third perigaeum-year handler variant
(api/perigaeum-year.js lines 588-945), where the SwissEph oracle may
throw.  A JavaScript exception is modelled as Except.error and every
numeric component is threaded through the Except monad, so a thrown
sample aborts that component exactly as the exception would.  A
non-finite (NaN) array entry is modelled as Option.none inside the
oracle's result array: safeCalcUt only checks the array shape and
passes NaN entries through, and every comparison against a possibly-NaN
observable uses the JavaScript rule that any comparison involving NaN
is false (jsLt / jsLe below).
-/

/-- JavaScript `x < y` on possibly-NaN numbers: false when either side
is NaN. -/
noncomputable def jsLt (x y : Option ℝ) : Bool :=
  match x, y with
  | some a, some b => decide (a < b)
  | _, _ => false

/-- JavaScript `x <= y` on possibly-NaN numbers: false when either side
is NaN. -/
noncomputable def jsLe (x y : Option ℝ) : Bool :=
  match x, y with
  | some a, some b => decide (a ≤ b)
  | _, _ => false

/-- Math.abs on a possibly-NaN number. -/
noncomputable def jsAbs (x : Option ℝ) : Option ℝ := x.map abs

/-- The per-body search mode (api/perigaeum-year.js lines 604-615). -/
inductive PMode where
  | sun : PMode
  | chironGlobal : PMode
  | retro : PMode
deriving DecidableEq, Repr

/-- One entry of the BODIES table: display name and mode. -/
structure BodyCfg where
  name : String
  mode : PMode
deriving DecidableEq, Repr

/-- The BODIES table (api/perigaeum-year.js lines 604-615). -/
def BODIES : List BodyCfg :=
  [⟨"Sonne", PMode.sun⟩, ⟨"Merkur", PMode.retro⟩, ⟨"Venus", PMode.retro⟩,
   ⟨"Mars", PMode.retro⟩, ⟨"Jupiter", PMode.retro⟩, ⟨"Saturn", PMode.retro⟩,
   ⟨"Chiron", PMode.chironGlobal⟩, ⟨"Uranus", PMode.retro⟩,
   ⟨"Neptun", PMode.retro⟩, ⟨"Pluto", PMode.retro⟩]

/-- One body's result entry (api/perigaeum-year.js lines 916-928). -/
structure BodyRes where
  body : String
  perigees : List String
  info : Option String
deriving DecidableEq, Repr

/-- The raw oracle: swe.calc_ut for one body, which may throw
(Except.error) or return an array whose entries may be NaN (none). -/
abbrev Oracle := ℝ → Except String (List (Option ℝ))

/-- Error text of safeCalcUt (api/perigaeum-year.js line 737). -/
def errInvalidArray : String := "calc_ut lieferte kein gültiges Array"

/-- Per-body catch prefix (api/perigaeum-year.js line 927). -/
def errPrefix : String := "Berechnung nicht möglich: "

/-- Diagnostic for a body with no event (api/perigaeum-year.js line 889). -/
def infoNoPerigee : String := "Kein Perigäum in diesem Jahr"

/-- safeCalcUt (api/perigaeum-year.js lines 733-740): forwards the oracle
result, throwing when it is not a valid array of length at least 4.
NaN entries pass this check: only the array shape is inspected. -/
def safeCalcUt (oracle : Oracle) (jd : ℝ) : Except String (List (Option ℝ)) := do
  let pos ← oracle jd
  if pos.length < 4 then Except.error errInvalidArray else pure pos

/-- getDist of makeCalc (api/perigaeum-year.js lines 743-746): pos[2],
possibly NaN.  The getD default stands for the undefined entry of a
too-short array, which the length check has already excluded. -/
def getDist (oracle : Oracle) (jd : ℝ) : Except String (Option ℝ) := do
  let pos ← safeCalcUt oracle jd
  pure (pos.getD 2 none)

/-- getLonSpeed of makeCalc (api/perigaeum-year.js lines 747-750):
pos[3], possibly NaN. -/
def getLonSpeed (oracle : Oracle) (jd : ℝ) : Except String (Option ℝ) := do
  let pos ← safeCalcUt oracle jd
  pure (pos.getD 3 none)

/-- Loop state of the third variant's goldenMin: real interval and probe
points, cached observable values that may be NaN. -/
structure GoldenSt where
  a : ℝ
  b : ℝ
  c : ℝ
  d : ℝ
  fc : Option ℝ
  fd : Option ℝ

/-- goldenMin loop of the third variant (api/perigaeum-year.js lines
665-676): the `fd < fc` comparison is false when either cached value is
NaN, so an all-NaN observable still shrinks the interval through the
else branch until the tolerance stop. -/
noncomputable def goldenLoop (f : ℝ → Except String (Option ℝ)) (tolDays : ℝ) :
    ℕ → GoldenSt → Except String GoldenSt
  | 0, s => pure s
  | n + 1, s =>
    if s.b - s.a ≤ tolDays then pure s
    else if jsLt s.fd s.fc then do
      let d := s.c + V1.gr * (s.b - s.c)
      let fd ← f d
      goldenLoop f tolDays n ⟨s.c, s.b, s.d, d, s.fd, fd⟩
    else do
      let c := s.d - V1.gr * (s.d - s.a)
      let fc ← f c
      goldenLoop f tolDays n ⟨s.a, s.d, c, s.c, fc, s.fc⟩

/-- goldenMin (api/perigaeum-year.js lines 658-678, third variant): the
returned midpoint is always a genuine number even when every observable
sample was NaN. -/
noncomputable def goldenMin (f : ℝ → Except String (Option ℝ)) (a b tolDays : ℝ) :
    Except String ℝ := do
  let c := b - V1.gr * (b - a)
  let d := a + V1.gr * (b - a)
  let fc ← f c
  let fd ← f d
  let s ← goldenLoop f tolDays 80 ⟨a, b, c, d, fc, fd⟩
  pure ((s.a + s.b) / 2)

/-- Iteration budget for the 6-hour coarse scan. -/
noncomputable def coarseFuel (a b : ℝ) : ℕ :=
  (⌊(b + 1 / 1000000000 - a) / (1 / 4)⌋ + 2).toNat

/-- Coarse 6-hour scan loop of minDistanceInWindow / globalMinWithPad
(api/perigaeum-year.js lines 685-692 and 710-717): walk the grid,
keeping the grid point with the smallest observable; the third variant
has no finiteness guard here, so a NaN sample never wins the
`d < bestD` comparison and bestJd silently stays put. -/
noncomputable def coarseMinLoop (f : ℝ → Except String (Option ℝ)) (b : ℝ) :
    ℕ → ℝ → ℝ → Option ℝ → Except String (ℝ × Option ℝ)
  | 0, _, bestJd, bestD => pure (bestJd, bestD)
  | n + 1, jd, bestJd, bestD =>
    if jd ≤ b + 1 / 1000000000 then do
      let j := min jd b
      let d ← f j
      if jsLt d bestD then coarseMinLoop f b n (jd + 1 / 4) j d
      else coarseMinLoop f b n (jd + 1 / 4) bestJd bestD
    else pure (bestJd, bestD)

/-- minDistanceInWindow (api/perigaeum-year.js lines 680-698, third
variant): coarse 6-hour scan from getDist(a), then golden-section in the
window bestJd plus or minus 2 days at 1-minute tolerance. -/
noncomputable def minDistanceInWindow (f : ℝ → Except String (Option ℝ))
    (a b : ℝ) : Except String ℝ := do
  let bestD ← f a
  let best ← coarseMinLoop f b (coarseFuel a b) a a bestD
  let left := max a (best.1 - 2)
  let right := min b (best.1 + 2)
  goldenMin f left right (1 / 1440)

/-- globalMinWithPad (api/perigaeum-year.js lines 701-727): global coarse
minimum over the padded year, fine search in bestJd plus or minus 5
days, and the in-year flag. -/
noncomputable def globalMinWithPad (f : ℝ → Except String (Option ℝ))
    (jdYearStart jdYearEnd padDays : ℝ) : Except String (ℝ × Bool) := do
  let a := jdYearStart - padDays
  let b := jdYearEnd + padDays
  let bestD ← f a
  let best ← coarseMinLoop f b (coarseFuel a b) a a bestD
  let left := max a (best.1 - 5)
  let right := min b (best.1 + 5)
  let jdMin ← goldenMin f left right (1 / 1440)
  pure (jdMin, decide (jdYearStart ≤ jdMin ∧ jdMin < jdYearEnd))

/-- Retro-scan state of the third variant (api/perigaeum-year.js lines
760-764), over the reals. -/
structure RetroState where
  inRetro : Bool
  startJd : Option ℝ
  retroStreak : ℕ
  directStreak : ℕ
  windows : List (ℝ × ℝ)

/-- Loop body of the third variant's findRetroWindows
(api/perigaeum-year.js lines 770-795); the speed sample has already been
obtained and may be NaN.  Unlike the first variant there is no
finiteness guard: `Math.abs(NaN) <= eps` is false and `NaN < 0` is
false, so a NaN speed is counted as a direct sample. -/
noncomputable def retroStep (jdStart : ℝ) (s : RetroState) (curJd : ℝ)
    (sp : Option ℝ) : RetroState :=
  if jsLe (jsAbs sp) (some (1 / 1000000 : ℝ)) then s
  else
    let isRetro := jsLt sp (some 0)
    let s1 : RetroState :=
      if isRetro then
        { s with retroStreak := s.retroStreak + 1, directStreak := 0 }
      else
        { s with directStreak := s.directStreak + 1, retroStreak := 0 }
    let s2 : RetroState :=
      if s1.inRetro = false ∧ V1.need ≤ s1.retroStreak then
        { s1 with
          inRetro := true
          startJd := some
            (let st := curJd - (1 / 8) * ((V1.need : ℝ) + 1)
             if st < jdStart then jdStart else st) }
      else s1
    if s2.inRetro = true ∧ V1.need ≤ s2.directStreak then
      { s2 with
        inRetro := false
        windows := s2.windows ++ [(s2.startJd.getD jdStart, curJd)]
        startJd := none }
    else s2

/-- Iteration budget for the 3-hour retro scan. -/
noncomputable def retroFuel (jdStart jdEnd : ℝ) : ℕ :=
  (⌊(jdEnd + 1 / 1000000000 - jdStart) / (1 / 8)⌋ + 2).toNat

/-- Scan loop of the third variant's findRetroWindows
(api/perigaeum-year.js lines 766-798); a throwing getLonSpeed aborts the
scan like the JavaScript exception would. -/
noncomputable def retroLoop (speed : ℝ → Except String (Option ℝ))
    (jdStart jdEnd : ℝ) : ℕ → ℝ → RetroState → Except String RetroState
  | 0, _, s => pure s
  | n + 1, jd, s =>
    if jd ≤ jdEnd + 1 / 1000000000 then do
      let curJd := min jd jdEnd
      let sp ← speed curJd
      let s1 := retroStep jdStart s curJd sp
      if jdEnd ≤ curJd then pure s1
      else retroLoop speed jdStart jdEnd n (jd + 1 / 8) s1
    else pure s

/-- findRetroWindows (api/perigaeum-year.js lines 755-805, third
variant). -/
noncomputable def findRetroWindows (speed : ℝ → Except String (Option ℝ))
    (jdStart jdEnd : ℝ) : Except String (List (ℝ × ℝ)) := do
  let s ← retroLoop speed jdStart jdEnd (retroFuel jdStart jdEnd) jdStart
    ⟨false, none, 0, 0, []⟩
  let ws :=
    if s.inRetro = true ∧ s.startJd.isSome then
      s.windows ++ [(s.startJd.getD jdStart, jdEnd)]
    else s.windows
  pure (ws.filter fun w => 1 < w.2 - w.1)

/-- jdToCalendar (api/perigaeum-year.js lines 627-649): Julian day to
(year, month, day), Math.floor as the integer floor. -/
noncomputable def jdToCalendar (jd : ℝ) : ℤ × ℤ × ℤ :=
  let Z : ℤ := ⌊jd + 1 / 2⌋
  let F : ℝ := jd + 1 / 2 - (Z : ℝ)
  let A : ℤ :=
    if (2299161 : ℤ) ≤ Z then
      let alpha : ℤ := ⌊((Z : ℝ) - 1867216.25) / 36524.25⌋
      Z + 1 + alpha - ⌊(alpha : ℝ) / 4⌋
    else Z
  let B : ℤ := A + 1524
  let C : ℤ := ⌊((B : ℝ) - 122.1) / 365.25⌋
  let D : ℤ := ⌊365.25 * (C : ℝ)⌋
  let E : ℤ := ⌊((B : ℝ) - (D : ℝ)) / 30.6001⌋
  let dayFloat : ℝ := (B : ℝ) - (D : ℝ) - (⌊30.6001 * (E : ℝ)⌋ : ℝ) + F
  let day : ℤ := ⌊dayFloat + 1 / 1000000⌋
  let month : ℤ := if E < 14 then E - 1 else E - 13
  let year : ℤ := if 2 < month then C - 4716 else C - 4715
  (year, month, day)

/-- String(n).padStart(2, "0") for the day/month fields. -/
def pad2 (n : ℤ) : String :=
  let s := toString n
  if s.length < 2 then "0" ++ s else s

/-- formatDateDE (api/perigaeum-year.js lines 651-655): dd.mm.yyyy. -/
def formatDateDE (cal : ℤ × ℤ × ℤ) : String :=
  pad2 cal.2.2 ++ "." ++ pad2 cal.2.1 ++ "." ++ toString cal.1

/-- The seen-Set duplicate filter over date strings
(api/perigaeum-year.js lines 903-909): keep the first occurrence of each
datum, preserving order. -/
def dedupDatum (xs : List String) : List String :=
  (xs.foldl (fun acc p => if acc.contains p then acc else acc ++ [p]) [])

/-- The per-body try block of the third variant's handler
(api/perigaeum-year.js lines 869-912): SUN refines the year's distance
minimum, CHIRON_GLOBAL takes the padded global minimum when it falls in
the year, RETRO refines one minimum per retro window (padded by 20
days), clips to the year, and dedups by date.  The swe-constant lookup
(lines 864-867) is absorbed into the oracle argument. -/
noncomputable def runBody (oracle : Oracle) (mode : PMode) (name : String)
    (jdYearStart jdYearEnd : ℝ) : Except String BodyRes :=
  match mode with
  | PMode.sun => do
    let jdMin ← minDistanceInWindow (getDist oracle) jdYearStart jdYearEnd
    pure ⟨name, [formatDateDE (jdToCalendar jdMin)], none⟩
  | PMode.chironGlobal => do
    let r ← globalMinWithPad (getDist oracle) jdYearStart jdYearEnd 60
    if r.2 then pure ⟨"Chiron", [formatDateDE (jdToCalendar r.1)], none⟩
    else pure ⟨"Chiron", [], some infoNoPerigee⟩
  | PMode.retro => do
    let ws ← findRetroWindows (getLonSpeed oracle) (jdYearStart - 20)
      (jdYearEnd + 20)
    let ps ← ws.foldlM (fun acc w => do
      let jdMin ← minDistanceInWindow (getDist oracle) w.1 w.2
      if jdYearStart ≤ jdMin ∧ jdMin < jdYearEnd then
        pure (acc ++ [formatDateDE (jdToCalendar jdMin)])
      else pure acc) []
    let ps2 := dedupDatum ps
    pure ⟨name, ps2, if ps2 = [] then some infoNoPerigee else none⟩

/-- The handler's body loop (api/perigaeum-year.js lines 862-930): each
body runs inside its own try/catch; a throw degrades that body to an
empty perigee list with a diagnostic info string and the loop goes on. -/
noncomputable def handlerBodies (calcFor : BodyCfg → Oracle) (cfgs : List BodyCfg)
    (jdYearStart jdYearEnd : ℝ) : List BodyRes :=
  cfgs.map fun body =>
    match runBody (calcFor body) body.mode body.name jdYearStart jdYearEnd with
    | Except.ok r => r
    | Except.error e => ⟨body.name, [], some (errPrefix ++ e)⟩

/-- Error message of the all-failing oracle in the witness. -/
def boomMsg : String := "ephe fehlt"

/-- An oracle assignment that throws for every body at every time. -/
def cexCalc : BodyCfg → Oracle := fun _ _ => Except.error boomMsg

/-- An oracle assignment that agrees with cexCalc except on the Sun. -/
def cexCalcSun : BodyCfg → Oracle := fun b t =>
  if b.name = "Sonne" then Except.ok [some 0, some 0, some 1, some 1]
  else cexCalc b t

/-- A well-formed calc_ut result whose numeric entries are all NaN. -/
def nanArr : List (Option ℝ) := [none, none, none, none]

/-- An oracle that returns the all-NaN array at every time: the shape
check of safeCalcUt accepts it, so nothing throws. -/
def nanOracle : Oracle := fun _ => Except.ok nanArr

/-- The all-NaN oracle for every body. -/
def cexNaNCalc : BodyCfg → Oracle := fun _ => nanOracle

end V3


/-!
## Theorems

The claim theorems, their witnesses, and the counterexamples follow.
-/

/-- Signed 360-degree wrapping helpers: the two signedDiffDeg variants
agree modulo 360 with the raw difference but cut the circle at
different seams.  C4 names the half-open range (-180, 180] with +180 at
the seam; the jonas-mondphasen variant satisfies it, the prenatal-check
variant does not (seam value -180). -/


lemma jsMod360_floor_branch (x : ℚ) (h : 0 ≤ x) :
    0 ≤ jsMod x 360 ∧ jsMod x 360 < 360 := by
  have h0 : (0:ℚ) ≤ x / 360 := by positivity
  have h1 : ((⌊x / 360⌋ : ℚ)) ≤ x / 360 := Int.floor_le _
  have h2 : x / 360 < (⌊x / 360⌋ : ℚ) + 1 := Int.lt_floor_add_one _
  unfold jsMod jsTrunc
  rw [if_pos h0]
  constructor <;> nlinarith

lemma jsMod360_ceil_branch (x : ℚ) (h : x < 0) :
    -360 < jsMod x 360 ∧ jsMod x 360 ≤ 0 := by
  have h0 : ¬ (0:ℚ) ≤ x / 360 := by
    intro hc
    nlinarith
  have h1 : x / 360 ≤ ((⌈x / 360⌉ : ℚ)) := Int.le_ceil _
  have h2 : ((⌈x / 360⌉ : ℚ)) < x / 360 + 1 := Int.ceil_lt_add_one _
  unfold jsMod jsTrunc
  rw [if_neg h0]
  constructor <;> nlinarith

lemma norm360_spec (x : ℚ) :
    0 ≤ norm360 x ∧ norm360 x < 360 ∧ ∃ k : ℤ, norm360 x = x - 360 * k := by
  have hk : ∃ k : ℤ, jsMod x 360 = x - 360 * k := ⟨jsTrunc (x / 360), rfl⟩
  obtain ⟨k, hkk⟩ := hk
  rcases le_or_lt 0 x with hx | hx
  · obtain ⟨hl, hr⟩ := jsMod360_floor_branch x hx
    unfold norm360
    rw [if_neg (by linarith)]
    exact ⟨hl, hr, k, hkk⟩
  · obtain ⟨hl, hr⟩ := jsMod360_ceil_branch x hx
    unfold norm360
    rcases lt_or_le (jsMod x 360) 0 with hneg | hpos
    · rw [if_pos hneg]
      refine ⟨by linarith, by linarith, k - 1, ?_⟩
      push_cast
      linarith
    · rw [if_neg (by linarith)]
      exact ⟨hpos, by linarith, k, hkk⟩

lemma repr360_unique (r1 r2 : ℚ) (k : ℤ) (h : r1 - r2 = 360 * k)
    (h1 : 0 ≤ r1) (h2 : r1 < 360) (h3 : 0 ≤ r2) (h4 : r2 < 360) : r1 = r2 := by
  have hb1 : (-1 : ℚ) < (k : ℚ) := by nlinarith
  have hb2 : ((k : ℚ)) < 1 := by nlinarith
  have hz : k = 0 := by
    have : (-1 : ℤ) < k := by exact_mod_cast hb1
    have : k < 1 := by exact_mod_cast hb2
    omega
  subst hz
  push_cast at h
  linarith

lemma norm360_eq_of (x r : ℚ) (k : ℤ) (hx : x = r + 360 * k)
    (h1 : 0 ≤ r) (h2 : r < 360) : norm360 x = r := by
  obtain ⟨hl, hr, m, hm⟩ := norm360_spec x
  refine repr360_unique _ _ (k - m) ?_ hl hr h1 h2
  rw [hm, hx]
  push_cast
  ring

lemma jonas_sdd_spec (a b : ℚ) :
    (-180 < Jonas.signedDiffDeg a b ∧ Jonas.signedDiffDeg a b ≤ 180) ∧
    (∃ k : ℤ, Jonas.signedDiffDeg a b = (a - b) - 360 * k) := by
  obtain ⟨hl, hr, k, hk⟩ := norm360_spec (a - b)
  unfold Jonas.signedDiffDeg
  rcases lt_or_le 180 (norm360 (a - b)) with hgt | hle
  · rw [if_pos hgt]
    refine ⟨⟨by linarith, by linarith⟩, k + 1, ?_⟩
    push_cast
    linarith
  · rw [if_neg (by linarith)]
    exact ⟨⟨by linarith, hle⟩, k, hk⟩

lemma jonas_sdd_seam (a b : ℚ) (k : ℤ) (h : a - b = 180 + 360 * k) :
    Jonas.signedDiffDeg a b = 180 := by
  have hn : norm360 (a - b) = 180 := norm360_eq_of _ _ k h (by norm_num) (by norm_num)
  unfold Jonas.signedDiffDeg
  rw [hn, if_neg (by norm_num)]

lemma prenatal_sdd_spec (a b : ℚ) :
    (-180 ≤ Prenatal.signedDiffDeg a b ∧ Prenatal.signedDiffDeg a b < 180) ∧
    (∃ k : ℤ, Prenatal.signedDiffDeg a b = (a - b) - 360 * k) := by
  obtain ⟨ha1, ha2, ka, hka⟩ := norm360_spec a
  obtain ⟨hb1, hb2, kb, hkb⟩ := norm360_spec b
  have hpos : 0 ≤ norm360 a - norm360 b + 540 := by linarith
  obtain ⟨hm1, hm2⟩ := jsMod360_floor_branch (norm360 a - norm360 b + 540) hpos
  have hmod : ∃ m : ℤ, jsMod (norm360 a - norm360 b + 540) 360 =
      (norm360 a - norm360 b + 540) - 360 * m :=
    ⟨jsTrunc ((norm360 a - norm360 b + 540) / 360), rfl⟩
  obtain ⟨m, hm⟩ := hmod
  have hdef : Prenatal.signedDiffDeg a b =
      jsMod (norm360 a - norm360 b + 540) 360 - 180 := rfl
  rw [hdef]
  refine ⟨⟨by linarith, by linarith⟩, m + ka - kb - 1, ?_⟩
  rw [hm, hka, hkb]
  push_cast
  ring

lemma prenatal_sdd_seam (a b : ℚ) (k : ℤ) (h : a - b = 180 + 360 * k) :
    Prenatal.signedDiffDeg a b = -180 := by
  obtain ⟨⟨h1, h2⟩, m, hm⟩ := prenatal_sdd_spec a b
  have : Prenatal.signedDiffDeg a b + 180 = 360 * ((k : ℚ) - m + 1) := by
    rw [hm, h]
    ring
  have hu := repr360_unique (Prenatal.signedDiffDeg a b + 180) 0 (k - m + 1)
    (by rw [this]; push_cast; ring) (by linarith) (by linarith) le_rfl (by norm_num)
  linarith

/-- C4 (amended): the jonas-mondphasen signedDiffDeg returns a value in
(-180, 180] congruent to a - b mod 360, with +180 at the seam; the
prenatal-check signedDiffDeg returns a value in [-180, 180) congruent to
a - b mod 360, with -180 (never +180) at the seam. -/
theorem signedDiffDeg_wrap (a b : ℚ) :
    (-180 < Jonas.signedDiffDeg a b ∧ Jonas.signedDiffDeg a b ≤ 180) ∧
    (∃ k : ℤ, Jonas.signedDiffDeg a b = (a - b) - 360 * k) ∧
    (∀ k : ℤ, a - b = 180 + 360 * k → Jonas.signedDiffDeg a b = 180) ∧
    (-180 ≤ Prenatal.signedDiffDeg a b ∧ Prenatal.signedDiffDeg a b < 180) ∧
    (∃ k : ℤ, Prenatal.signedDiffDeg a b = (a - b) - 360 * k) ∧
    (∀ k : ℤ, a - b = 180 + 360 * k → Prenatal.signedDiffDeg a b = -180) := by
  obtain ⟨hj1, hj2⟩ := jonas_sdd_spec a b
  obtain ⟨hp1, hp2⟩ := prenatal_sdd_spec a b
  exact ⟨hj1, hj2, fun k hk => jonas_sdd_seam a b k hk, hp1, hp2,
    fun k hk => prenatal_sdd_seam a b k hk⟩

/-- C4 counterexample: at a = 180, b = 0 (difference congruent to 180)
the prenatal-check helper returns -180, outside the claimed range
(-180, 180]. -/
theorem signedDiffDeg_seam_cex :
    Prenatal.signedDiffDeg 180 0 = -180 ∧
    ¬ (-180 < Prenatal.signedDiffDeg 180 0) := by
  norm_num [Prenatal.signedDiffDeg, norm360, jsMod, jsTrunc]

/-- C4 witness: the amended theorem applied at the seam point (180, 0). -/
theorem signedDiffDeg_wrap_witness :
    Jonas.signedDiffDeg 180 0 = 180 ∧ Prenatal.signedDiffDeg 180 0 = -180 :=
  ⟨(signedDiffDeg_wrap 180 0).2.2.1 0 (by norm_num),
   (signedDiffDeg_wrap 180 0).2.2.2.2.2 0 (by norm_num)⟩


/-- C5: with span = |max - min|, a degenerate cycle classifies normal;
values in the lowest tenth of the span classify super (near-minimum),
in the highest tenth mini (near-maximum), otherwise normal. -/
theorem classifyEvent_bands (v per apo : ℚ) :
    (|apo - per| ≤ 0 → Jonas.classifyEvent v per apo = Jonas.kindNormal) ∧
    (0 < |apo - per| →
      v ≤ min per apo + (1/10) * (max per apo - min per apo) →
      Jonas.classifyEvent v per apo = Jonas.kindSuper) ∧
    (0 < |apo - per| →
      max per apo - (1/10) * (max per apo - min per apo) ≤ v →
      Jonas.classifyEvent v per apo = Jonas.kindMini) ∧
    (0 < |apo - per| →
      min per apo + (1/10) * (max per apo - min per apo) < v →
      v < max per apo - (1/10) * (max per apo - min per apo) →
      Jonas.classifyEvent v per apo = Jonas.kindNormal) := by
  have hspan : max per apo - min per apo = |apo - per| := by
    exact max_sub_min_eq_abs per apo
  simp only [Jonas.classifyEvent]
  refine ⟨fun h => ?_, fun h1 h2 => ?_, fun h1 h2 => ?_, fun h1 h2 h3 => ?_⟩
  · rw [if_pos (by linarith)]
  · rw [if_neg (by simp only [not_not]; linarith), if_pos h2]
  · have hlt : min per apo + (1/10) * (max per apo - min per apo) <
        max per apo - (1/10) * (max per apo - min per apo) := by
      nlinarith [hspan]
    rw [if_neg (by simp only [not_not]; linarith), if_neg (by linarith),
      if_pos h2]
  · rw [if_neg (by simp only [not_not]; linarith), if_neg (by linarith),
      if_neg (by linarith)]

/-- C5 witness: the concrete examples of the claim, min 0.90, max 1.10. -/
theorem classifyEvent_bands_witness :
    Jonas.classifyEvent (905/1000) (90/100) (110/100) = Jonas.kindSuper ∧
    Jonas.classifyEvent (1095/1000) (90/100) (110/100) = Jonas.kindMini ∧
    Jonas.classifyEvent 1 (90/100) (110/100) = Jonas.kindNormal := by
  refine ⟨(classifyEvent_bands (905/1000) (90/100) (110/100)).2.1 (by norm_num) ?_,
    (classifyEvent_bands (1095/1000) (90/100) (110/100)).2.2.1 (by norm_num) ?_,
    (classifyEvent_bands 1 (90/100) (110/100)).2.2.2 (by norm_num) ?_ ?_⟩ <;>
      norm_num [min_def, max_def]


lemma dedupPush_nil (m x : ℚ) : Jonas.dedupPush m [] x = [x] := rfl

lemma dedupPush_last (m x last : ℚ) (acc : List ℚ)
    (h : acc.getLast? = some last) :
    Jonas.dedupPush m acc x = if m < |last - x| then acc ++ [x] else acc := by
  unfold Jonas.dedupPush
  rw [h]

lemma dedupPush_chain (m : ℚ) (acc : List ℚ) (x : ℚ)
    (h : List.Chain' (fun a b => m < |a - b|) acc) :
    List.Chain' (fun a b => m < |a - b|) (Jonas.dedupPush m acc x) := by
  cases hl : acc.getLast? with
  | none =>
    have : acc = [] := List.getLast?_eq_none_iff.mp hl
    subst this
    simp [dedupPush_nil]
  | some last =>
    rw [dedupPush_last m x last acc hl]
    by_cases hgap : m < |last - x|
    · rw [if_pos hgap]
      refine List.Chain'.append h (List.chain'_singleton x) ?_
      intro p hp q hq
      rw [hl] at hp
      simp at hp hq
      subst hp
      subst hq
      exact hgap
    · rw [if_neg hgap]
      exact h

lemma dedup_foldl_chain (m : ℚ) (xs : List ℚ) :
    ∀ acc, List.Chain' (fun a b => m < |a - b|) acc →
      List.Chain' (fun a b => m < |a - b|) (xs.foldl (Jonas.dedupPush m) acc) := by
  induction xs with
  | nil => intro acc h; exact h
  | cons x rest ih =>
    intro acc h
    exact ih _ (dedupPush_chain m acc x h)

lemma dedup_chain (m : ℚ) (xs : List ℚ) :
    List.Chain' (fun a b => m < |a - b|) (Jonas.dedup m xs) :=
  dedup_foldl_chain m xs [] List.chain'_nil

lemma dedup_foldl_of_chain (m : ℚ) (xs : List ℚ) :
    ∀ acc, List.Chain' (fun a b => m < |a - b|) (acc ++ xs) →
      xs.foldl (Jonas.dedupPush m) acc = acc ++ xs := by
  induction xs with
  | nil => intro acc _; simp
  | cons x rest ih =>
    intro acc h
    have hstep : Jonas.dedupPush m acc x = acc ++ [x] := by
      cases hl : acc.getLast? with
      | none =>
        have : acc = [] := List.getLast?_eq_none_iff.mp hl
        subst this
        simp [dedupPush_nil]
      | some last =>
        have hrel : m < |last - x| := by
          rcases List.chain'_append.mp h with ⟨_, _, hlink⟩
          exact hlink last hl x (by simp)
        rw [dedupPush_last m x last acc hl, if_pos hrel]
    have : (x :: rest).foldl (Jonas.dedupPush m) acc =
        rest.foldl (Jonas.dedupPush m) (acc ++ [x]) := by
      simp [List.foldl_cons, hstep]
    rw [this, ih (acc ++ [x]) (by simpa using h)]
    simp

/-- C6 (amended): dedup is idempotent; two events separated by strictly
more than minSeparation are both kept; two events separated by at most
minSeparation (including exactly minSeparation) collapse to one. -/
theorem dedup_idem_boundary :
    (∀ (m : ℚ) (xs : List ℚ), Jonas.dedup m (Jonas.dedup m xs) = Jonas.dedup m xs) ∧
    (∀ (m a b : ℚ), m < |a - b| → Jonas.dedup m [a, b] = [a, b]) ∧
    (∀ (m a b : ℚ), |a - b| ≤ m → Jonas.dedup m [a, b] = [a]) := by
  refine ⟨fun m xs => ?_, fun m a b h => ?_, fun m a b h => ?_⟩
  · have := dedup_foldl_of_chain m (Jonas.dedup m xs) []
      (by simpa using dedup_chain m xs)
    simpa [Jonas.dedup] using this
  · simp [Jonas.dedup, Jonas.dedupPush, abs_sub_comm b a, h]
  · simp [Jonas.dedup, Jonas.dedupPush, abs_sub_comm b a, not_lt.mpr h]

/-- C6 counterexample: two events exactly minSeparation = 2*60*1000 ms
apart collapse to one; the claim says both are kept. -/
theorem dedup_exact_separation_cex :
    Jonas.dedup (2 * 60 * 1000) [0, 2 * 60 * 1000] = [0] ∧
    Jonas.dedup (2 * 60 * 1000) [0, 2 * 60 * 1000] ≠ [0, 2 * 60 * 1000] := by
  norm_num [Jonas.dedup, Jonas.dedupPush]

/-- C6 witness: the amended boundary cases at concrete separations. -/
theorem dedup_idem_boundary_witness :
    Jonas.dedup 1 [0, 3] = [0, 3] ∧ Jonas.dedup 1 [0, 1] = [0] :=
  ⟨dedup_idem_boundary.2.1 1 0 3 (by norm_num),
   dedup_idem_boundary.2.2 1 0 1 (by norm_num)⟩


/-- C2 (amended): when the bracket endpoints are not opposite-signed
(product strictly positive, so neither endpoint is zero), bisectZero and
refineRootBisection return none (null) — no result at all — rather than
throwing; they do not return the interval midpoint. -/
theorem rootRefine_nonbracket_none :
    (∀ (f : ℚ → Option ℚ) (a b tol fa fb : ℚ),
      f a = some fa → f b = some fb → 0 < fa * fb →
      V2.bisectZero f a b tol = none) ∧
    (∀ (ang : ℤ → ℚ) (t0 t1 : ℤ) (target : ℚ) (maxIter : ℕ),
      0 < Jonas.fAt ang target t0 * Jonas.fAt ang target t1 →
      Jonas.refineRootBisection ang t0 t1 target maxIter = none) := by
  constructor
  · intro f a b tol fa fb ha hb hpos
    have hfa : fa ≠ 0 := by
      rintro rfl
      simp at hpos
    have hfb : fb ≠ 0 := by
      rintro rfl
      simp at hpos
    unfold V2.bisectZero
    rw [ha, hb]
    simp only [if_neg hfa, if_neg hfb, if_pos hpos]
  · intro ang t0 t1 target maxIter hpos
    have hfa : Jonas.fAt ang target t0 ≠ 0 := by
      intro h
      rw [h] at hpos
      simp at hpos
    have hfb : Jonas.fAt ang target t1 ≠ 0 := by
      intro h
      rw [h] at hpos
      simp at hpos
    unfold Jonas.refineRootBisection
    simp only [if_neg hfa, if_neg hfb, if_pos hpos]

/-- C2 counterexample: a non-bracketing call returns none, not the
interval midpoint (0+1)/2 the claim promises. -/
theorem bisectZero_nonbracket_cex :
    V2.bisectZero (fun _ => some 1) 0 1 (1/1440) = none ∧
    V2.bisectZero (fun _ => some 1) 0 1 (1/1440) ≠ some ((0 + 1) / 2) := by
  norm_num [V2.bisectZero]
  intro h
  exact Option.noConfusion h

/-- C2 witness: the amended theorem applied to concrete non-bracketing
calls of both refiners. -/
theorem rootRefine_nonbracket_none_witness :
    V2.bisectZero (fun _ => some 2) 0 1 (1/1440) = none ∧
    Jonas.refineRootBisection (fun _ => 90) 0 1000000 0 70 = none := by
  refine ⟨rootRefine_nonbracket_none.1 (fun _ => some 2) 0 1 (1/1440) 2 2 rfl rfl
      (by norm_num), rootRefine_nonbracket_none.2 (fun _ => 90) 0 1000000 0 70 ?_⟩
  norm_num [Jonas.fAt, Jonas.signedDiffDeg, norm360, jsMod, jsTrunc]


/-- C10: a year parameter that fails to parse or parses outside
[1900, 2050] makes the yearly handlers answer 400 with ok:false, no
per-body results, and no oracle work (the pipeline is not invoked);
the pipeline only ever runs with a gated year in [1900, 2050]. -/
theorem yearGate_bounds :
    (∀ (yearParam : String) (pipeline : ℤ → List String),
      jsParseInt yearParam = none →
      handlerYearStage yearParam pipeline = ⟨400, false, none⟩) ∧
    (∀ (yearParam : String) (pipeline : ℤ → List String) (y : ℤ),
      jsParseInt yearParam = some y → y < 1900 ∨ 2050 < y →
      handlerYearStage yearParam pipeline = ⟨400, false, none⟩) ∧
    (∀ (yearParam : String) (y : ℤ),
      yearGate yearParam = some y → 1900 ≤ y ∧ y ≤ 2050) ∧
    (∀ (yearParam : String) (pipeline : ℤ → List String) (y : ℤ),
      yearGate yearParam = some y →
      handlerYearStage yearParam pipeline = ⟨200, true, some (pipeline y)⟩) := by
  refine ⟨fun s p h => ?_, fun s p y h hout => ?_, fun s y h => ?_, fun s p y h => ?_⟩
  · simp [handlerYearStage, yearGate, h]
  · simp [handlerYearStage, yearGate, h, if_pos hout]
  · unfold yearGate at h
    cases hp : jsParseInt s with
    | none => rw [hp] at h; exact absurd h (by simp)
    | some z =>
      rw [hp] at h
      by_cases hz : z < 1900 ∨ 2050 < z
      · simp [hz] at h
      · simp [hz] at h
        push_neg at hz
        cases h
        omega
  · simp [handlerYearStage, h]

/-- C10 witness: the gate at the concrete params "abc", "1800", "2000". -/
theorem yearGate_bounds_witness :
    handlerYearStage yrBad (fun _ => []) = ⟨400, false, none⟩ ∧
    handlerYearStage yrLow (fun _ => []) = ⟨400, false, none⟩ ∧
    (1900 ≤ (2000 : ℤ) ∧ (2000 : ℤ) ≤ 2050) ∧
    handlerYearStage yrGood (fun _ => []) = ⟨200, true, some []⟩ :=
  ⟨yearGate_bounds.1 yrBad (fun _ => []) (by decide),
   yearGate_bounds.2.1 yrLow (fun _ => []) 1800 (by decide) (by decide),
   yearGate_bounds.2.2.1 yrGood 2000 (by decide),
   yearGate_bounds.2.2.2 yrGood (fun _ => []) 2000 (by decide)⟩


/-- C9 (amended): the perigaeum-year handler closes the SwissEph handle
on every path that acquired it (try/finally); the jonas-mondphasen-year
handler acquires the handle but never closes it on any path. -/
theorem handler_resource_release :
    (∀ (isOptions : Bool) (yearParam : String) (c s t : Bool),
      Traces.REv.acquire ∈ Traces.perigaeumHandlerEvents isOptions yearParam c s t →
      Traces.REv.close ∈ Traces.perigaeumHandlerEvents isOptions yearParam c s t) ∧
    (∀ a b c d e f g : Bool,
      Traces.REv.close ∉ Traces.jonasHandlerEvents a b c d e f g) := by
  constructor
  · intro isOptions yearParam c s t hacq
    unfold Traces.perigaeumHandlerEvents at *
    cases isOptions with
    | true => simp at hacq
    | false =>
      simp only [Bool.false_eq_true, if_false] at *
      simp
  · intro a b c d e f g
    unfold Traces.jonasHandlerEvents
    cases a <;> cases b <;> cases c <;> cases d <;> cases e <;> cases f <;>
      cases g <;> simp

/-- C9 counterexample: a successful GET request to the
jonas-mondphasen-year handler acquires the handle and returns 200
without any close event, contradicting release on every exit path. -/
theorem jonas_handler_no_close_cex :
    Traces.jonasHandlerEvents false false true true true true false =
      [Traces.REv.acquire, Traces.REv.respond 200] ∧
    Traces.REv.acquire ∈
      Traces.jonasHandlerEvents false false true true true true false ∧
    Traces.REv.close ∉
      Traces.jonasHandlerEvents false false true true true true false := by
  refine ⟨rfl, by decide, by decide⟩

/-- C9 witness: a successful perigaeum-year request closes its handle. -/
theorem handler_resource_release_witness :
    Traces.REv.close ∈ Traces.perigaeumHandlerEvents false yrGood true true false :=
  handler_resource_release.1 false yrGood true true false (by decide)


lemma retroStep_none (j c : ℚ) (s : V1.RetroState) :
    V1.retroStep j s c none = s := rfl

lemma retroStep_neutral (j c sp : ℚ) (s : V1.RetroState)
    (h : |sp| ≤ V1.epsSpeed) :
    V1.retroStep j s c (some sp) = s := by
  simp [V1.retroStep, h]

lemma retroStep_retro_eq (j c sp : ℚ) (s : V1.RetroState)
    (h1 : ¬ |sp| ≤ V1.epsSpeed) (h2 : sp < 0)
    (h3 : s.inRetro = true ∨ s.retroStreak + 1 < V1.need) :
    V1.retroStep j s c (some sp) =
      { s with retroStreak := s.retroStreak + 1, directStreak := 0 } := by
  have hni : ¬ (s.inRetro = false ∧ V1.need ≤ s.retroStreak + 1) := by
    rintro ⟨hf, hn⟩
    rcases h3 with h3 | h3
    · rw [h3] at hf
      exact Bool.noConfusion hf
    · omega
  have hno : ¬ (s.inRetro = true ∧ V1.need ≤ 0) := by
    rintro ⟨-, hn⟩
    simp [V1.need] at hn
  simp only [V1.retroStep, if_neg h1, if_pos h2]
  rw [if_neg hni]
  rw [if_neg hno]

lemma retroStep_direct_eq (j c sp : ℚ) (s : V1.RetroState)
    (h1 : ¬ |sp| ≤ V1.epsSpeed) (h2 : ¬ sp < 0)
    (h3 : s.inRetro = false ∨ s.directStreak + 1 < V1.need) :
    V1.retroStep j s c (some sp) =
      { s with directStreak := s.directStreak + 1, retroStreak := 0 } := by
  have hni : ¬ (s.inRetro = false ∧ V1.need ≤ 0) := by
    rintro ⟨-, hn⟩
    simp [V1.need] at hn
  have hno : ¬ (s.inRetro = true ∧ V1.need ≤ s.directStreak + 1) := by
    rintro ⟨ht, hn⟩
    rcases h3 with h3 | h3
    · rw [h3] at ht
      exact Bool.noConfusion ht
    · omega
  simp only [V1.retroStep, if_neg h1, if_neg h2]
  rw [if_neg hni]
  rw [if_neg hno]

lemma noRetroRun_stays_direct :
    ∀ (xs : List (ℚ × Option ℚ)) (cur : ℕ) (s : V1.RetroState) (j : ℚ),
      s.inRetro = false → s.retroStreak = cur → noRetroRunB cur xs = true →
      (V1.retroSteps j s xs).inRetro = false ∧
      (V1.retroSteps j s xs).windows = s.windows := by
  intro xs
  induction xs with
  | nil =>
    intro cur s j hin _ _
    exact ⟨hin, rfl⟩
  | cons p rest ih =>
    intro cur s j hin hstreak hrun
    obtain ⟨t, samp⟩ := p
    have hsteps : V1.retroSteps j s ((t, samp) :: rest) =
        V1.retroSteps j (V1.retroStep j s t samp) rest := rfl
    rw [hsteps]
    cases samp with
    | none =>
      rw [retroStep_none]
      have hrun' : noRetroRunB cur rest = true := by
        simpa [noRetroRunB, isRetroSample, isDirectSample] using hrun
      exact ih cur s j hin hstreak hrun'
    | some sp =>
      by_cases hneut : |sp| ≤ V1.epsSpeed
      · rw [retroStep_neutral j t sp s hneut]
        have hrun' : noRetroRunB cur rest = true := by
          have hr : isRetroSample (t, some sp) = false := by
            simp [isRetroSample]
            intro h
            linarith [abs_nonneg sp, le_abs_self sp]
          have hd : isDirectSample (t, some sp) = false := by
            simp [isDirectSample]
            intro h
            linarith
          simpa [noRetroRunB, hr, hd] using hrun
        exact ih cur s j hin hstreak hrun'
      · by_cases hretro : sp < 0
        · have hr : isRetroSample (t, some sp) = true := by
            simp [isRetroSample]
            exact ⟨hretro, lt_of_not_le hneut⟩
          have hrun2 := hrun
          rw [show noRetroRunB cur ((t, some sp) :: rest) =
              (decide (cur + 1 < V1.need) && noRetroRunB (cur + 1) rest) from by
            simp [noRetroRunB, hr]] at hrun2
          rw [Bool.and_eq_true] at hrun2
          obtain ⟨hlt, hrun'⟩ := hrun2
          have hlt' : cur + 1 < V1.need := of_decide_eq_true hlt
          rw [retroStep_retro_eq j t sp s hneut hretro
            (Or.inr (by rw [hstreak]; exact hlt'))]
          exact ih (cur + 1) _ j (by simp [hin]) (by simp [hstreak]) hrun'
        · have hd : isDirectSample (t, some sp) = true := by
            simp [isDirectSample]
            constructor
            · linarith [not_lt.mp hretro]
            · rcases abs_cases sp with ⟨he, _⟩ | ⟨he, _⟩ <;> rw [he] at hneut <;>
                push_neg at hneut <;> linarith [not_lt.mp hretro]
          have hr : isRetroSample (t, some sp) = false := by
            simp [isRetroSample]
            intro h
            exact absurd h hretro
          have hrun' : noRetroRunB 0 rest = true := by
            simpa [noRetroRunB, hr, hd] using hrun
          rw [retroStep_direct_eq j t sp s hneut hretro (Or.inl hin)]
          exact ih 0 _ j (by simp [hin]) (by simp) hrun'

lemma noDirectRun_stays_retro :
    ∀ (xs : List (ℚ × Option ℚ)) (cur : ℕ) (s : V1.RetroState) (j : ℚ),
      s.inRetro = true → s.directStreak = cur → noDirectRunB cur xs = true →
      (V1.retroSteps j s xs).inRetro = true := by
  intro xs
  induction xs with
  | nil =>
    intro cur s j hin _ _
    exact hin
  | cons p rest ih =>
    intro cur s j hin hstreak hrun
    obtain ⟨t, samp⟩ := p
    have hsteps : V1.retroSteps j s ((t, samp) :: rest) =
        V1.retroSteps j (V1.retroStep j s t samp) rest := rfl
    rw [hsteps]
    cases samp with
    | none =>
      rw [retroStep_none]
      have hrun' : noDirectRunB cur rest = true := by
        simpa [noDirectRunB, isRetroSample, isDirectSample] using hrun
      exact ih cur s j hin hstreak hrun'
    | some sp =>
      by_cases hneut : |sp| ≤ V1.epsSpeed
      · rw [retroStep_neutral j t sp s hneut]
        have hrun' : noDirectRunB cur rest = true := by
          have hr : isRetroSample (t, some sp) = false := by
            simp [isRetroSample]
            intro h
            linarith [abs_nonneg sp, le_abs_self sp]
          have hd : isDirectSample (t, some sp) = false := by
            simp [isDirectSample]
            intro h
            linarith
          simpa [noDirectRunB, hr, hd] using hrun
        exact ih cur s j hin hstreak hrun'
      · by_cases hretro : sp < 0
        · have hr : isRetroSample (t, some sp) = true := by
            simp [isRetroSample]
            exact ⟨hretro, lt_of_not_le hneut⟩
          have hd : isDirectSample (t, some sp) = false := by
            simp [isDirectSample]
            intro h
            exact absurd hretro (not_lt.mpr h)
          have hrun' : noDirectRunB 0 rest = true := by
            simpa [noDirectRunB, hr, hd] using hrun
          rw [retroStep_retro_eq j t sp s hneut hretro (Or.inl hin)]
          exact ih 0 _ j (by simp [hin]) (by simp) hrun'
        · have hd : isDirectSample (t, some sp) = true := by
            simp [isDirectSample]
            constructor
            · linarith [not_lt.mp hretro]
            · rcases abs_cases sp with ⟨he, _⟩ | ⟨he, _⟩ <;> rw [he] at hneut <;>
                push_neg at hneut <;> linarith [not_lt.mp hretro]
          have hrun2 := hrun
          rw [show noDirectRunB cur ((t, some sp) :: rest) =
              (decide (cur + 1 < V1.need) && noDirectRunB (cur + 1) rest) from by
            simp [noDirectRunB, hd]] at hrun2
          rw [Bool.and_eq_true] at hrun2
          obtain ⟨hlt, hrun'⟩ := hrun2
          have hlt' : cur + 1 < V1.need := of_decide_eq_true hlt
          rw [retroStep_direct_eq j t sp s hneut hretro
            (Or.inr (by rw [hstreak]; exact hlt'))]
          exact ih (cur + 1) _ j (by simp [hin]) (by simp [hstreak]) hrun'

/-- C3: a sample with |speed| <= epsilon is neutral (the state, hence
both streak counters, is unchanged); starting from the initial state,
sample sequences whose retro runs (neutral samples skipped, direct
samples resetting the run) are all shorter than hysteresisCount = 3
never flip into Retrograde and produce no windows; symmetrically, from
any in-Retrograde state, direct runs shorter than 3 never flip back;
and three consecutive retro samples do flip. -/
theorem retro_hysteresis :
    (∀ (jdStart curJd sp : ℚ) (s : V1.RetroState), |sp| ≤ V1.epsSpeed →
      V1.retroStep jdStart s curJd (some sp) = s) ∧
    (∀ (jdStart : ℚ) (xs : List (ℚ × Option ℚ)), noRetroRunB 0 xs = true →
      (V1.retroSteps jdStart V1.initRetroState xs).inRetro = false ∧
      (V1.retroSteps jdStart V1.initRetroState xs).windows = []) ∧
    (∀ (jdStart : ℚ) (xs : List (ℚ × Option ℚ)) (s : V1.RetroState),
      s.inRetro = true → s.directStreak = 0 → noDirectRunB 0 xs = true →
      (V1.retroSteps jdStart s xs).inRetro = true) ∧
    ((V1.retroSteps 0 V1.initRetroState
        [(0, some (-1)), (1/8, some (-1)), (1/4, some (-1))]).inRetro = true) := by
  refine ⟨fun jdStart curJd sp s h => retroStep_neutral jdStart curJd sp s h,
    fun jdStart xs h => ?_, fun jdStart xs s h1 h2 h3 =>
      noDirectRun_stays_retro xs 0 s jdStart h1 h2 h3, ?_⟩
  · exact noRetroRun_stays_direct xs 0 V1.initRetroState jdStart rfl rfl h
  · norm_num [V1.retroSteps, V1.retroStep, V1.epsSpeed, V1.need,
      V1.initRetroState, V1.retroGridStep]

/-- C3 witness: a neutral sample is a no-op; four retro samples
interrupted by one direct sample never flip; four direct samples
interrupted by one retro sample never flip back. -/
theorem retro_hysteresis_witness :
    V1.retroStep 0 V1.initRetroState 1 (some (1/2000000)) = V1.initRetroState ∧
    ((V1.retroSteps 0 V1.initRetroState
        [(0, some (-1)), (1/8, some (-1)), (1/4, some 1),
         (3/8, some (-1)), (1/2, some (-1))]).inRetro = false ∧
      (V1.retroSteps 0 V1.initRetroState
        [(0, some (-1)), (1/8, some (-1)), (1/4, some 1),
         (3/8, some (-1)), (1/2, some (-1))]).windows = []) ∧
    (V1.retroSteps 0 (⟨true, some 0, 5, 0, []⟩ : V1.RetroState)
        [(0, some 1), (1/8, some 1), (1/4, some (-1)),
         (3/8, some 1), (1/2, some 1)]).inRetro = true := by
  refine ⟨retro_hysteresis.1 0 1 (1/2000000) V1.initRetroState (by
      rw [abs_of_nonneg (by norm_num)]
      norm_num [V1.epsSpeed]),
    retro_hysteresis.2.1 0 _ (by
      norm_num [noRetroRunB, isRetroSample, isDirectSample, V1.epsSpeed, V1.need]),
    retro_hysteresis.2.2.1 0 _ (⟨true, some 0, 5, 0, []⟩ : V1.RetroState) rfl rfl (by
      norm_num [noDirectRunB, isRetroSample, isDirectSample, V1.epsSpeed, V1.need])⟩


lemma retroStep_retro_flip (j c sp : ℚ) (s : V1.RetroState)
    (h1 : ¬ |sp| ≤ V1.epsSpeed) (h2 : sp < 0)
    (hin : s.inRetro = false) (hge : V1.need ≤ s.retroStreak + 1) :
    V1.retroStep j s c (some sp) =
      { s with
        retroStreak := s.retroStreak + 1
        directStreak := 0
        inRetro := true
        startJd := some
          (if c - V1.retroGridStep * ((V1.need : ℚ) + 1) < j then j
           else c - V1.retroGridStep * ((V1.need : ℚ) + 1)) } := by
  have hyi : (s.inRetro = false ∧ V1.need ≤ s.retroStreak + 1) := ⟨hin, hge⟩
  have hno : ¬ ((true : Bool) = true ∧ V1.need ≤ 0) := by
    rintro ⟨-, hn⟩
    simp [V1.need] at hn
  simp only [V1.retroStep, if_neg h1, if_pos h2]
  rw [if_pos hyi]
  rw [if_neg hno]

lemma retroStep_direct_flip (j c sp : ℚ) (s : V1.RetroState)
    (h1 : ¬ |sp| ≤ V1.epsSpeed) (h2 : ¬ sp < 0)
    (hin : s.inRetro = true) (hge : V1.need ≤ s.directStreak + 1) :
    V1.retroStep j s c (some sp) =
      { s with
        directStreak := s.directStreak + 1
        retroStreak := 0
        inRetro := false
        windows := s.windows ++ [(s.startJd.getD j, c)]
        startJd := none } := by
  have hni : ¬ (s.inRetro = false ∧ V1.need ≤ 0) := by
    rintro ⟨-, hn⟩
    simp [V1.need] at hn
  have hyo : (s.inRetro = true ∧ V1.need ≤ s.directStreak + 1) := ⟨hin, hge⟩
  simp only [V1.retroStep, if_neg h1, if_neg h2]
  rw [if_neg hni]
  rw [if_pos hyo]

lemma WInv_mono (t u : ℚ) (s : V1.RetroState) (h : WInv t s) (htu : t ≤ u) :
    WInv u s := by
  obtain ⟨h1, h2, h3⟩ := h
  exact ⟨h1, fun w hw => le_trans (h2 w hw) htu, h3⟩

lemma retroStep_WInv (j t curJd : ℚ) (samp : Option ℚ) (s : V1.RetroState)
    (h : WInv t s) (htc : t ≤ curJd) :
    WInv curJd (V1.retroStep j s curJd samp) := by
  obtain ⟨hpw, hend, hopen⟩ := h
  cases samp with
  | none => exact WInv_mono t curJd s ⟨hpw, hend, hopen⟩ htc
  | some sp =>
    by_cases hneut : |sp| ≤ V1.epsSpeed
    · rw [retroStep_neutral j curJd sp s hneut]
      exact WInv_mono t curJd s ⟨hpw, hend, hopen⟩ htc
    · by_cases hretro : sp < 0
      · cases hin : s.inRetro with
        | true =>
          rw [retroStep_retro_eq j curJd sp s hneut hretro (Or.inl hin)]
          refine ⟨hpw, fun w hw => le_trans (hend w hw) htc, fun _ => ?_⟩
          obtain ⟨v, hv, hva⟩ := hopen hin
          exact ⟨v, hv, hva⟩
        | false =>
          by_cases hge : V1.need ≤ s.retroStreak + 1
          · rw [retroStep_retro_flip j curJd sp s hneut hretro hin hge]
            refine ⟨hpw, fun w hw => le_trans (hend w hw) htc, fun _ => ?_⟩
            refine ⟨_, rfl, fun w hw => ?_⟩
            have hw2 : w.2 ≤ curJd := le_trans (hend w hw) htc
            by_cases hcl : curJd - V1.retroGridStep * ((V1.need : ℚ) + 1) < j
            · rw [if_pos hcl]
              simp only [V1.retroGridStep, V1.need] at hcl ⊢
              push_cast at hcl ⊢
              linarith
            · rw [if_neg hcl]
              simp only [V1.retroGridStep, V1.need]
              push_cast
              linarith
          · rw [retroStep_retro_eq j curJd sp s hneut hretro
              (Or.inr (by omega))]
            refine ⟨hpw, fun w hw => le_trans (hend w hw) htc, fun hr => ?_⟩
            exact absurd hr (by simp [hin])
      · cases hin : s.inRetro with
        | false =>
          rw [retroStep_direct_eq j curJd sp s hneut hretro (Or.inl hin)]
          refine ⟨hpw, fun w hw => le_trans (hend w hw) htc, fun hr => ?_⟩
          exact absurd hr (by simp [hin])
        | true =>
          by_cases hge : V1.need ≤ s.directStreak + 1
          · rw [retroStep_direct_flip j curJd sp s hneut hretro hin hge]
            obtain ⟨v, hv, hva⟩ := hopen hin
            refine ⟨?_, ?_, fun hr => by simp at hr⟩
            · rw [hv]
              simp only [Option.getD_some]
              refine List.pairwise_append.mpr ⟨hpw, List.pairwise_singleton _ _, ?_⟩
              intro w hw q hq
              simp at hq
              subst hq
              exact hva w hw
            · intro w hw
              rw [hv] at hw
              simp only [Option.getD_some, List.mem_append, List.mem_singleton] at hw
              rcases hw with hw | hw
              · exact le_trans (hend w hw) htc
              · subst hw
                exact le_rfl
          · rw [retroStep_direct_eq j curJd sp s hneut hretro (Or.inr (by omega))]
            refine ⟨hpw, fun w hw => le_trans (hend w hw) htc, fun _ => ?_⟩
            obtain ⟨v, hv, hva⟩ := hopen hin
            exact ⟨v, hv, hva⟩

lemma retroLoop_WInv (speed : ℚ → Option ℚ) (j e : ℚ) :
    ∀ (n : ℕ) (jd : ℚ) (s : V1.RetroState), WInv (min jd e) s →
      WInv e (V1.retroLoop speed j e n jd s) := by
  intro n
  induction n with
  | zero =>
    intro jd s h
    exact WInv_mono _ _ _ h (min_le_right _ _)
  | succ n ih =>
    intro jd s h
    simp only [V1.retroLoop]
    by_cases hg : jd ≤ e + 1 / 1000000000
    · rw [if_pos hg]
      have hstep := retroStep_WInv j (min jd e) (min jd e) (speed (min jd e)) s h le_rfl
      by_cases hbr : e ≤ min jd e
      · rw [if_pos hbr]
        exact WInv_mono _ _ _ hstep (min_le_right _ _)
      · rw [if_neg hbr]
        exact ih (jd + V1.retroGridStep) _
          (WInv_mono _ _ _ hstep
            (min_le_min (by simp [V1.retroGridStep]) le_rfl))
    · rw [if_neg hg]
      exact WInv_mono _ _ _ h (min_le_right _ _)

/-- C8 (amended): every returned window is longer than one day and the
windows are strictly ordered by start; on a flip into Retrograde the
window start is back-dated by (need+1) steps clamped to the scan start.
The windows need not be pairwise disjoint: the back-dated start of a
window can precede the previous window's end by up to half a day. -/
theorem findRetroWindows_ordered (speed : ℚ → Option ℚ) (jdStart jdEnd : ℚ) :
    (∀ w ∈ V1.findRetroWindows speed jdStart jdEnd, 1 < w.2 - w.1) ∧
    List.Pairwise (fun w1 w2 : ℚ × ℚ => w1.1 < w2.1)
      (V1.findRetroWindows speed jdStart jdEnd) ∧
    (∀ (s : V1.RetroState) (curJd : ℚ) (samp : Option ℚ), s.inRetro = false →
      (V1.retroStep jdStart s curJd samp).inRetro = true →
      (V1.retroStep jdStart s curJd samp).startJd = some
        (if curJd - V1.retroGridStep * ((V1.need : ℚ) + 1) < jdStart then jdStart
         else curJd - V1.retroGridStep * ((V1.need : ℚ) + 1))) := by
  have hinit : WInv (min jdStart jdEnd) V1.initRetroState := by
    refine ⟨List.Pairwise.nil, fun w hw => absurd hw (List.not_mem_nil w), fun hr => ?_⟩
    exact absurd hr (by simp [V1.initRetroState])
  have hfin := retroLoop_WInv speed jdStart jdEnd
    (V1.retroFuel jdStart jdEnd) jdStart V1.initRetroState hinit
  set sFin := V1.retroLoop speed jdStart jdEnd
    (V1.retroFuel jdStart jdEnd) jdStart V1.initRetroState with hsFin
  obtain ⟨hpw, hend, hopen⟩ := hfin
  have hraw : List.Pairwise windowRel
      (if sFin.inRetro = true ∧ sFin.startJd.isSome then
        sFin.windows ++ [(sFin.startJd.getD jdStart, jdEnd)]
      else sFin.windows) := by
    by_cases hc : sFin.inRetro = true ∧ sFin.startJd.isSome
    · rw [if_pos hc]
      obtain ⟨v, hv, hva⟩ := hopen hc.1
      rw [hv]
      simp only [Option.getD_some]
      refine List.pairwise_append.mpr ⟨hpw, List.pairwise_singleton _ _, ?_⟩
      intro w hw q hq
      simp at hq
      subst hq
      exact hva w hw
    · rw [if_neg hc]
      exact hpw
  have hfilter : V1.findRetroWindows speed jdStart jdEnd =
      (if sFin.inRetro = true ∧ sFin.startJd.isSome then
        sFin.windows ++ [(sFin.startJd.getD jdStart, jdEnd)]
      else sFin.windows).filter (fun w => 1 < w.2 - w.1) := rfl
  have hdur : ∀ w ∈ V1.findRetroWindows speed jdStart jdEnd, 1 < w.2 - w.1 := by
    intro w hw
    rw [hfilter] at hw
    have := (List.mem_filter.mp hw).2
    exact of_decide_eq_true this
  refine ⟨hdur, ?_, ?_⟩
  · have hpf : List.Pairwise windowRel (V1.findRetroWindows speed jdStart jdEnd) := by
      rw [hfilter]
      exact List.Pairwise.filter _ hraw
    refine List.Pairwise.imp_of_mem ?_ hpf
    intro w1 w2 hw1 hw2 hrel
    have h1 := hdur w1 hw1
    unfold windowRel at hrel
    linarith
  · intro s curJd samp hin hflip
    cases samp with
    | none =>
      rw [retroStep_none] at hflip
      rw [hin] at hflip
      exact absurd hflip (by simp)
    | some sp =>
      by_cases hneut : |sp| ≤ V1.epsSpeed
      · rw [retroStep_neutral jdStart curJd sp s hneut] at hflip
        rw [hin] at hflip
        exact absurd hflip (by simp)
      · by_cases hretro : sp < 0
        · by_cases hge : V1.need ≤ s.retroStreak + 1
          · rw [retroStep_retro_flip jdStart curJd sp s hneut hretro hin hge]
          · rw [retroStep_retro_eq jdStart curJd sp s hneut hretro
              (Or.inr (by omega))] at hflip
            simp only at hflip
            rw [hin] at hflip
            exact absurd hflip (by simp)
        · rw [retroStep_direct_eq jdStart curJd sp s hneut hretro (Or.inl hin)] at hflip
          simp only at hflip
          rw [hin] at hflip
          exact absurd hflip (by simp)

set_option maxHeartbeats 4000000 in
/-- C8 counterexample: a speed series that leaves retrograde for 3
samples and immediately re-enters yields two kept windows [0, 3/2] and
[11/8, 25/8] that overlap (11/8 < 3/2), refuting pairwise
non-overlap. -/
theorem findRetroWindows_overlap_cex :
    V1.findRetroWindows cexSpeed 0 (25/8) = [(0, 3/2), (11/8, 25/8)] ∧
    (11/8 : ℚ) < 3/2 := by
  constructor
  · norm_num [V1.findRetroWindows, V1.retroFuel, V1.retroLoop, V1.retroStep,
      V1.retroGridStep, V1.epsSpeed, V1.need, V1.initRetroState, cexSpeed]
  · norm_num

set_option maxHeartbeats 4000000 in
/-- C8 witness: the duration bound at a window of the concrete scan, and
the back-dating equation at a concrete flip (10 - 4/8 = 19/2). -/
theorem findRetroWindows_ordered_witness :
    (1 : ℚ) < 3/2 - 0 ∧
    (V1.retroStep 0 (⟨false, none, 2, 0, []⟩ : V1.RetroState) 10
      (some (-1))).startJd = some (19/2) := by
  have hlist : V1.findRetroWindows cexSpeed 0 (25/8) = [(0, 3/2), (11/8, 25/8)] := by
    norm_num [V1.findRetroWindows, V1.retroFuel, V1.retroLoop, V1.retroStep,
      V1.retroGridStep, V1.epsSpeed, V1.need, V1.initRetroState, cexSpeed]
  have hmem : ((0 : ℚ), (3 : ℚ)/2) ∈ V1.findRetroWindows cexSpeed 0 (25/8) := by
    rw [hlist]
    simp
  have hflip : (V1.retroStep 0 (⟨false, none, 2, 0, []⟩ : V1.RetroState) 10
      (some (-1))).inRetro = true := by
    norm_num [V1.retroStep, V1.epsSpeed, V1.need]
  have h2 := (findRetroWindows_ordered cexSpeed 0 (25/8)).2.2
    (⟨false, none, 2, 0, []⟩ : V1.RetroState) 10 (some (-1)) rfl hflip
  have h1 := (findRetroWindows_ordered cexSpeed 0 (25/8)).1 (0, 3/2) hmem
  refine ⟨by simpa using h1, ?_⟩
  rw [h2]
  norm_num [V1.retroGridStep, V1.need]


lemma sqrt5_sq : Real.sqrt 5 ^ 2 = 5 := Real.sq_sqrt (by norm_num)

lemma sqrt5_gt_two : (2 : ℝ) < Real.sqrt 5 := by
  have h4 : Real.sqrt 4 = 2 := by
    rw [show (4:ℝ) = 2 ^ 2 by norm_num, Real.sqrt_sq (by norm_num)]
  calc (2:ℝ) = Real.sqrt 4 := h4.symm
    _ < Real.sqrt 5 := Real.sqrt_lt_sqrt (by norm_num) (by norm_num)

lemma sqrt5_le : Real.sqrt 5 ≤ 9/4 := by
  have h : Real.sqrt (81/16) = 9/4 := by
    rw [show (81:ℝ)/16 = (9/4) ^ 2 by norm_num, Real.sqrt_sq (by norm_num)]
  calc Real.sqrt 5 ≤ Real.sqrt (81/16) := Real.sqrt_le_sqrt (by norm_num)
    _ = 9/4 := h

lemma gr_half : (1:ℝ)/2 < V1.gr := by
  unfold V1.gr
  linarith [sqrt5_gt_two]

lemma gr_pos : (0:ℝ) < V1.gr := by linarith [gr_half]

lemma gr_ub : V1.gr ≤ 5/8 := by
  unfold V1.gr
  linarith [sqrt5_le]

lemma gr_lt_one : V1.gr < 1 := by linarith [gr_ub]

lemma gr_sq : V1.gr * V1.gr = 1 - V1.gr := by
  unfold V1.gr
  have h := sqrt5_sq
  nlinarith [h]

lemma golden_stepA (f : ℝ → ℝ) (a0 b0 t0 : ℝ) (hu : UnimodalOn f a0 b0 t0)
    (s : V1.GoldenSt) (h : GInv f a0 b0 t0 s) (hab : s.a < s.b)
    (hfd : s.fd < s.fc) :
    GInv f a0 b0 t0
      ⟨s.c, s.b, s.d, s.c + V1.gr * (s.b - s.c), s.fd,
        f (s.c + V1.gr * (s.b - s.c))⟩ ∧
    s.b - s.c = V1.gr * (s.b - s.a) := by
  obtain ⟨ha0, hb0, hat, htb, hc, hd, hfc, hfd'⟩ := h
  have hgr0 := gr_pos
  have hgr1 := gr_lt_one
  have hgrh := gr_half
  have hsq := gr_sq
  have hac : s.a ≤ s.c := by rw [hc]; nlinarith
  have hcd : s.c < s.d := by rw [hc, hd]; nlinarith
  have hdb : s.d ≤ s.b := by rw [hd]; nlinarith
  have hct0 : s.c ≤ t0 := by
    by_contra hcon
    push_neg at hcon
    have := hu.2 s.c s.d (le_of_lt hcon) hcd (le_trans hdb hb0)
    rw [← hfc, ← hfd'] at this
    linarith
  have h5 : s.d = s.b - V1.gr * (s.b - s.c) := by
    rw [hc, hd]
    linear_combination (s.b - s.a) * hsq
  have h7 : s.fd = f s.d := hfd'
  have hlen : s.b - s.c = V1.gr * (s.b - s.a) := by rw [hc]; ring
  exact ⟨⟨le_trans ha0 hac, hb0, hct0, htb, h5, rfl, h7, rfl⟩, hlen⟩

lemma golden_stepB (f : ℝ → ℝ) (a0 b0 t0 : ℝ) (hu : UnimodalOn f a0 b0 t0)
    (s : V1.GoldenSt) (h : GInv f a0 b0 t0 s) (hab : s.a < s.b)
    (hfd : ¬ s.fd < s.fc) :
    GInv f a0 b0 t0
      ⟨s.a, s.d, s.d - V1.gr * (s.d - s.a), s.c,
        f (s.d - V1.gr * (s.d - s.a)), s.fc⟩ ∧
    s.d - s.a = V1.gr * (s.b - s.a) := by
  obtain ⟨ha0, hb0, hat, htb, hc, hd, hfc, hfd'⟩ := h
  have hgr0 := gr_pos
  have hgr1 := gr_lt_one
  have hgrh := gr_half
  have hsq := gr_sq
  have hac : s.a ≤ s.c := by rw [hc]; nlinarith
  have hcd : s.c < s.d := by rw [hc, hd]; nlinarith
  have hdb : s.d ≤ s.b := by rw [hd]; nlinarith
  have ht0d : t0 ≤ s.d := by
    by_contra hcon
    push_neg at hcon
    have := hu.1 s.c s.d (le_trans ha0 hac) hcd (le_of_lt hcon)
    rw [← hfc, ← hfd'] at this
    linarith
  have h6 : s.c = s.a + V1.gr * (s.d - s.a) := by
    rw [hc, hd]
    linear_combination (s.a - s.b) * hsq
  have h7 : s.fc = f s.c := hfc
  have hlen : s.d - s.a = V1.gr * (s.b - s.a) := by rw [hd]; ring
  exact ⟨⟨ha0, le_trans hdb hb0, hat, ht0d, rfl, h6, rfl, h7⟩, hlen⟩

lemma goldenLoop_spec (f : ℝ → ℝ) (a0 b0 t0 tol : ℝ)
    (hu : UnimodalOn f a0 b0 t0) (htol : 0 < tol) :
    ∀ (n : ℕ) (s : V1.GoldenSt), GInv f a0 b0 t0 s →
      GInv f a0 b0 t0 (V1.goldenLoop f tol n s) ∧
      (V1.goldenLoop f tol n s).b - (V1.goldenLoop f tol n s).a ≤
        max tol (V1.gr ^ n * (s.b - s.a)) := by
  intro n
  induction n with
  | zero =>
    intro s h
    refine ⟨h, ?_⟩
    simp only [V1.goldenLoop, pow_zero, one_mul]
    exact le_max_right _ _
  | succ n ih =>
    intro s h
    simp only [V1.goldenLoop]
    by_cases hstop : s.b - s.a ≤ tol
    · rw [if_pos hstop]
      exact ⟨h, le_max_of_le_left hstop⟩
    · rw [if_neg hstop]
      push_neg at hstop
      have hab : s.a < s.b := by linarith
      by_cases hbr : s.fd < s.fc
      · rw [if_pos hbr]
        obtain ⟨hinv, hlen⟩ := golden_stepA f a0 b0 t0 hu s h hab hbr
        obtain ⟨hg, hb⟩ := ih _ hinv
        refine ⟨hg, le_trans hb ?_⟩
        have : V1.gr ^ n * (s.b - s.c) = V1.gr ^ (n + 1) * (s.b - s.a) := by
          rw [hlen, pow_succ]
          ring
        rw [this]
      · rw [if_neg hbr]
        obtain ⟨hinv, hlen⟩ := golden_stepB f a0 b0 t0 hu s h hab hbr
        obtain ⟨hg, hb⟩ := ih _ hinv
        refine ⟨hg, le_trans hb ?_⟩
        have : V1.gr ^ n * (s.d - s.a) = V1.gr ^ (n + 1) * (s.b - s.a) := by
          rw [hlen, pow_succ]
          ring
        rw [this]

lemma pow80_small : V1.gr ^ 80 * 4 ≤ 1 / 1440 := by
  have h1 : V1.gr ^ 80 ≤ (5/8 : ℝ) ^ 80 :=
    pow_le_pow_left₀ (le_of_lt gr_pos) gr_ub 80
  have h2 : ((5:ℝ)/8) ^ 10 ≤ 1/100 := by norm_num
  have h3 : ((5:ℝ)/8) ^ 80 = (((5:ℝ)/8) ^ 10) ^ 8 := by
    rw [← pow_mul]
  have h4 : (((5:ℝ)/8) ^ 10) ^ 8 ≤ ((1:ℝ)/100) ^ 8 :=
    pow_le_pow_left₀ (by positivity) h2 8
  have h5 : ((1:ℝ)/100) ^ 8 * 4 ≤ 1/1440 := by norm_num
  nlinarith [h1, h4]

/-- C1: for every continuous, strictly unimodal f on [a, b] with
minimiser t0, goldenMin at the tolerance 1/1440 day used by
minDistanceInWindow (whose refinement window has length at most 4 days)
returns a time within 1/1440 of t0: each iteration shrinks the interval
by the golden ratio preserving t0 inside it, the loop stops once
b - a <= tol or after the 80-iteration budget, and the midpoint of the
final interval is within tol of t0. -/
theorem goldenMin_converges (f : ℝ → ℝ) (a b t0 : ℝ)
    (_hcont : ContinuousOn f (Set.Icc a b)) (hu : UnimodalOn f a b t0)
    (h1 : a ≤ t0) (h2 : t0 ≤ b) (hlen : b - a ≤ 4) :
    |V1.goldenMin f a b (1/1440) - t0| ≤ 1/1440 := by
  have hinit : GInv f a b t0
      ⟨a, b, b - V1.gr * (b - a), a + V1.gr * (b - a),
        f (b - V1.gr * (b - a)), f (a + V1.gr * (b - a))⟩ :=
    ⟨le_refl a, le_refl b, h1, h2, rfl, rfl, rfl, rfl⟩
  obtain ⟨hg, hb⟩ := goldenLoop_spec f a b t0 (1/1440) hu (by norm_num) 80 _ hinit
  set sF := V1.goldenLoop f (1/1440) 80
    ⟨a, b, b - V1.gr * (b - a), a + V1.gr * (b - a),
      f (b - V1.gr * (b - a)), f (a + V1.gr * (b - a))⟩ with hsF
  obtain ⟨-, -, hat, htb, -, -, -, -⟩ := hg
  have hba : 0 ≤ b - a := by linarith
  have hsmall : V1.gr ^ 80 * (b - a) ≤ 1/1440 := by
    have := pow80_small
    have hm : V1.gr ^ 80 * (b - a) ≤ V1.gr ^ 80 * 4 :=
      mul_le_mul_of_nonneg_left hlen (by positivity)
    linarith
  have hfinal : sF.b - sF.a ≤ 1/1440 := le_trans hb (max_le le_rfl hsmall)
  have hmid : V1.goldenMin f a b (1/1440) = (sF.a + sF.b) / 2 := rfl
  rw [hmid]
  rw [abs_le]
  constructor <;> linarith

lemma quadOracle_unimodal : UnimodalOn quadOracle 0 1 (1/2) := by
  constructor
  · intro x y hx hxy hy
    unfold quadOracle
    nlinarith
  · intro x y hx hxy hy
    unfold quadOracle
    nlinarith

/-- C1 witness: the synthetic oracle (t - 1/2)^2 on [0, 1]. -/
theorem goldenMin_converges_witness :
    ContinuousOn quadOracle (Set.Icc 0 1) ∧ UnimodalOn quadOracle 0 1 (1/2) ∧
    (0 : ℝ) ≤ 1/2 ∧ (1/2 : ℝ) ≤ 1 ∧ (1 : ℝ) - 0 ≤ 4 ∧
    |V1.goldenMin quadOracle 0 1 (1/1440) - 1/2| ≤ 1/1440 := by
  have hcont : ContinuousOn quadOracle (Set.Icc 0 1) := by
    unfold quadOracle
    fun_prop
  exact ⟨hcont, quadOracle_unimodal, by norm_num, by norm_num, by norm_num,
    goldenMin_converges quadOracle 0 1 (1/2) hcont quadOracle_unimodal
      (by norm_num) (by norm_num) (by norm_num)⟩


lemma safeCalcUt_error (oracle : V3.Oracle) (jd : ℝ) (e : String)
    (h : oracle jd = Except.error e) :
    V3.safeCalcUt oracle jd = Except.error e := by
  simp only [V3.safeCalcUt, h]; rfl

lemma getDist_error (oracle : V3.Oracle) (jd : ℝ) (e : String)
    (h : oracle jd = Except.error e) :
    V3.getDist oracle jd = Except.error e := by
  simp only [V3.getDist, safeCalcUt_error oracle jd e h]; rfl

lemma getLonSpeed_error (oracle : V3.Oracle) (jd : ℝ) (e : String)
    (h : oracle jd = Except.error e) :
    V3.getLonSpeed oracle jd = Except.error e := by
  simp only [V3.getLonSpeed, safeCalcUt_error oracle jd e h]; rfl

lemma minDistanceInWindow_error (f : ℝ → Except String (Option ℝ)) (a b : ℝ)
    (e : String) (h : f a = Except.error e) :
    V3.minDistanceInWindow f a b = Except.error e := by
  simp only [V3.minDistanceInWindow, h]; rfl

lemma globalMinWithPad_error (f : ℝ → Except String (Option ℝ)) (ys ye pad : ℝ)
    (e : String) (h : f (ys - pad) = Except.error e) :
    V3.globalMinWithPad f ys ye pad = Except.error e := by
  simp only [V3.globalMinWithPad, h]; rfl

lemma retroFuel_succ (jdStart jdEnd : ℝ) (h : jdStart ≤ jdEnd) :
    ∃ m : ℕ, V3.retroFuel jdStart jdEnd = m + 1 := by
  have hx : (0 : ℝ) ≤ (jdEnd + 1 / 1000000000 - jdStart) / (1 / 8) := by
    apply div_nonneg _ (by norm_num)
    linarith
  have hfl : (0 : ℤ) ≤ ⌊(jdEnd + 1 / 1000000000 - jdStart) / (1 / 8)⌋ :=
    Int.floor_nonneg.mpr hx
  have hge : 1 ≤ V3.retroFuel jdStart jdEnd := by
    unfold V3.retroFuel
    omega
  exact ⟨V3.retroFuel jdStart jdEnd - 1, by omega⟩

lemma findRetroWindows_error (speed : ℝ → Except String (Option ℝ))
    (jdStart jdEnd : ℝ) (e : String) (h : jdStart ≤ jdEnd)
    (hsp : speed (min jdStart jdEnd) = Except.error e) :
    V3.findRetroWindows speed jdStart jdEnd = Except.error e := by
  obtain ⟨m, hm⟩ := retroFuel_succ jdStart jdEnd h
  have hloop : V3.retroLoop speed jdStart jdEnd (V3.retroFuel jdStart jdEnd)
      jdStart ⟨false, none, 0, 0, []⟩ = Except.error e := by
    rw [hm]
    simp only [V3.retroLoop]
    rw [if_pos (by linarith : jdStart ≤ jdEnd + 1 / 1000000000)]
    rw [hsp]
    rfl
  simp only [V3.findRetroWindows, hloop]
  rfl

lemma runBody_error (oracle : V3.Oracle) (mode : V3.PMode) (name : String)
    (ys ye : ℝ) (hy : ys ≤ ye)
    (hfail : ∀ t, ∃ e, oracle t = Except.error e) :
    ∃ e, V3.runBody oracle mode name ys ye = Except.error e := by
  cases mode with
  | sun =>
    obtain ⟨e, he⟩ := hfail ys
    refine ⟨e, ?_⟩
    simp only [V3.runBody]
    rw [minDistanceInWindow_error _ _ _ e (getDist_error oracle ys e he)]
    rfl
  | chironGlobal =>
    obtain ⟨e, he⟩ := hfail (ys - 60)
    refine ⟨e, ?_⟩
    simp only [V3.runBody]
    rw [globalMinWithPad_error _ _ _ _ e (getDist_error oracle (ys - 60) e he)]
    rfl
  | retro =>
    obtain ⟨e, he⟩ := hfail (min (ys - 20) (ye + 20))
    refine ⟨e, ?_⟩
    simp only [V3.runBody]
    rw [findRetroWindows_error _ _ _ e (by linarith)
      (getLonSpeed_error oracle _ e he)]
    rfl

lemma jsLt_none_left (y : Option ℝ) : V3.jsLt none y = false := rfl

lemma exceptBind_ok {α β : Type} (a : α) (k : α → Except String β) :
    (Except.ok a : Except String α) >>= k = k a := rfl

lemma getDist_nan (jd : ℝ) : V3.getDist V3.nanOracle jd = Except.ok none := rfl

lemma coarseMinLoop_nan (f : ℝ → Except String (Option ℝ))
    (hf : ∀ x, f x = Except.ok none) (b : ℝ) :
    ∀ (n : ℕ) (jd bestJd : ℝ) (bestD : Option ℝ),
    V3.coarseMinLoop f b n jd bestJd bestD = Except.ok (bestJd, bestD) := by
  intro n
  induction n with
  | zero => intro jd bestJd bestD; rfl
  | succ n ih =>
    intro jd bestJd bestD
    by_cases h : jd ≤ b + 1 / 1000000000
    · have hlt : V3.jsLt none bestD = false := jsLt_none_left bestD
      simp only [V3.coarseMinLoop, if_pos h, hf, hlt, Bool.false_eq_true,
        if_false, exceptBind_ok]
      exact ih (jd + 1/4) bestJd bestD
    · simp only [V3.coarseMinLoop, if_neg h]; rfl

lemma goldenLoop_nan (f : ℝ → Except String (Option ℝ))
    (hf : ∀ x, f x = Except.ok none) (tol : ℝ) :
    ∀ (n : ℕ) (s : V3.GoldenSt), s.fc = none → s.fd = none →
    ∃ s', V3.goldenLoop f tol n s = Except.ok s' := by
  intro n
  induction n with
  | zero => intro s _ _; exact ⟨s, rfl⟩
  | succ n ih =>
    intro s hc hd
    by_cases ht : s.b - s.a ≤ tol
    · exact ⟨s, by simp only [V3.goldenLoop, if_pos ht]; rfl⟩
    · have hlt : V3.jsLt s.fd s.fc = false := by rw [hd]; exact jsLt_none_left _
      obtain ⟨s', hs'⟩ :=
        ih ⟨s.a, s.d, s.d - V1.gr * (s.d - s.a), s.c, none, s.fc⟩ rfl hc
      refine ⟨s', ?_⟩
      simp only [V3.goldenLoop, if_neg ht, hlt, Bool.false_eq_true, if_false,
        hf, exceptBind_ok]
      exact hs'

lemma goldenMin_nan (f : ℝ → Except String (Option ℝ))
    (hf : ∀ x, f x = Except.ok none) (a b tol : ℝ) :
    ∃ d, V3.goldenMin f a b tol = Except.ok d := by
  obtain ⟨s', hs'⟩ := goldenLoop_nan f hf tol 80
    ⟨a, b, b - V1.gr * (b - a), a + V1.gr * (b - a), none, none⟩ rfl rfl
  refine ⟨(s'.a + s'.b) / 2, ?_⟩
  simp only [V3.goldenMin, hf, exceptBind_ok, hs']
  rfl

lemma minDistanceInWindow_nan (f : ℝ → Except String (Option ℝ))
    (hf : ∀ x, f x = Except.ok none) (a b : ℝ) :
    ∃ d, V3.minDistanceInWindow f a b = Except.ok d := by
  obtain ⟨d, hd⟩ := goldenMin_nan f hf (max a (a - 2)) (min b (a + 2)) (1/1440)
  refine ⟨d, ?_⟩
  simp only [V3.minDistanceInWindow, hf, exceptBind_ok,
    coarseMinLoop_nan f hf b]
  exact hd

lemma runBody_sun_nan (name : String) (ys ye : ℝ) :
    ∃ d, V3.runBody V3.nanOracle V3.PMode.sun name ys ye =
      Except.ok ⟨name, [d], none⟩ := by
  obtain ⟨jd, hjd⟩ := minDistanceInWindow_nan (V3.getDist V3.nanOracle)
    (fun x => getDist_nan x) ys ye
  refine ⟨V3.formatDateDE (V3.jdToCalendar jd), ?_⟩
  simp only [V3.runBody, hjd, exceptBind_ok]
  rfl

/-- C7 counterexample: an oracle that returns well-formed arrays whose
entries are all NaN is not caught by safeCalcUt, and the SUN body then
emits one spurious perigee date with no diagnostic info string — not
the empty list with a diagnostic the claim promises for a body whose
oracle yields only non-finite samples. -/
theorem perBody_nonfinite_cex :
    (V3.handlerBodies V3.cexNaNCalc [⟨"Sonne", V3.PMode.sun⟩] 0 365).map
      (fun r => (r.body, r.perigees.length, r.info)) =
    [("Sonne", 1, (none : Option String))] := by
  obtain ⟨d, hd⟩ := runBody_sun_nan "Sonne" 0 365
  simp only [V3.handlerBodies, V3.cexNaNCalc, List.map_cons, List.map_nil, hd]
  rfl

/-- C7 (amended): the batch loop maps every configured body to a result
entry (no abort); a body whose oracle RAISES at every sampled time
degrades to an empty perigee list with a diagnostic info string
prefixed "Berechnung nicht möglich: "; each body's result entry depends
only on its own oracle, so one body's failure cannot change another's
result.  But — contrary to the original claim — non-finite samples are
not a caught failure: safeCalcUt only checks the array shape, NaN
entries pass through, every NaN comparison is false, and a SUN-mode
body whose oracle returns only NaN distances still emits one
(spurious) perigee date with no diagnostic. -/
theorem perBody_isolation :
    (∀ (calcFor : V3.BodyCfg → V3.Oracle) (cfgs : List V3.BodyCfg) (ys ye : ℝ),
      (V3.handlerBodies calcFor cfgs ys ye).length = cfgs.length) ∧
    (∀ (calcFor : V3.BodyCfg → V3.Oracle) (cfgs : List V3.BodyCfg) (ys ye : ℝ)
      (i : ℕ) (b : V3.BodyCfg), cfgs[i]? = some b → ys ≤ ye →
      (∀ t, ∃ e, calcFor b t = Except.error e) →
      ∃ e, (V3.handlerBodies calcFor cfgs ys ye)[i]? =
        some ⟨b.name, [], some (V3.errPrefix ++ e)⟩) ∧
    (∀ (calcFor calcFor2 : V3.BodyCfg → V3.Oracle) (cfgs : List V3.BodyCfg)
      (ys ye : ℝ) (i : ℕ) (b : V3.BodyCfg), cfgs[i]? = some b →
      calcFor b = calcFor2 b →
      (V3.handlerBodies calcFor cfgs ys ye)[i]? =
        (V3.handlerBodies calcFor2 cfgs ys ye)[i]?) ∧
    (∀ (name : String) (ys ye : ℝ),
      ∃ d, V3.runBody V3.nanOracle V3.PMode.sun name ys ye =
        Except.ok ⟨name, [d], none⟩) := by
  refine ⟨fun calcFor cfgs ys ye => List.length_map _ _,
    fun calcFor cfgs ys ye i b hb hy hfail => ?_,
    fun calcFor calcFor2 cfgs ys ye i b hb heq => ?_,
    fun name ys ye => runBody_sun_nan name ys ye⟩
  · obtain ⟨e, he⟩ := runBody_error (calcFor b) b.mode b.name ys ye hy hfail
    refine ⟨e, ?_⟩
    unfold V3.handlerBodies
    rw [List.getElem?_map, hb]
    simp only [Option.map_some']
    rw [he]
  · unfold V3.handlerBodies
    rw [List.getElem?_map, List.getElem?_map, hb]
    simp only [Option.map_some']
    rw [heq]

/-- C7 witness: with an oracle that throws for every body and time, the
full 10-body batch still yields 10 entries, the Sun degrades to an
empty list with the catch diagnostic, and Mercury's entry is unchanged
when only the Sun's oracle is swapped out; with the all-NaN oracle the
Sun instead yields one spurious date and no info string. -/
theorem perBody_isolation_witness :
    (V3.handlerBodies V3.cexCalc V3.BODIES 0 365).length = 10 ∧
    (∃ e, (V3.handlerBodies V3.cexCalc V3.BODIES 0 365)[0]? =
      some ⟨"Sonne", [], some (V3.errPrefix ++ e)⟩) ∧
    (V3.handlerBodies V3.cexCalc V3.BODIES 0 365)[1]? =
      (V3.handlerBodies V3.cexCalcSun V3.BODIES 0 365)[1]? ∧
    (∃ d, V3.runBody V3.nanOracle V3.PMode.sun "Sonne" 0 365 =
      Except.ok ⟨"Sonne", [d], none⟩) := by
  refine ⟨?_, ?_, ?_, ?_⟩
  · rw [perBody_isolation.1 V3.cexCalc V3.BODIES 0 365]
    rfl
  · exact perBody_isolation.2.1 V3.cexCalc V3.BODIES 0 365 0
      ⟨"Sonne", V3.PMode.sun⟩ rfl (by norm_num)
      (fun t => ⟨V3.boomMsg, rfl⟩)
  · refine perBody_isolation.2.2.1 V3.cexCalc V3.cexCalcSun V3.BODIES 0 365 1
      ⟨"Merkur", V3.PMode.retro⟩ rfl ?_
    funext t
    simp [V3.cexCalc, V3.cexCalcSun]
  · exact perBody_isolation.2.2.2 "Sonne" 0 365
